import Mathlib

/-!
# VideoGPT: playback controller, generation pipeline and library page

A shallow embedding of `src/VideoPlayer.jsx` (the playback controller), of
`src/VIDEOGPT/Pages/Generate.jsx` (the generation pipeline and the replay handler), of
`src/VIDEOGPT/Pages/Library.jsx` (loading, filtering and opening records) and of
`src/TopicInput.jsx` (the submit handler of the topic form).

Conventions of the embedding:

* React state is a record; a handler is a function from the state before the handler
  to the state after all of its setter calls have been applied.
* JavaScript numbers are exact rationals (`ℚ`) and `Math.floor` is `Int.floor`; in
  `onboundary` the arithmetic is exact, in `onboundaryDouble` the result of every
  operation is rounded to the nearest double (`roundDouble`).
* `string.length` counts UTF-16 code units (`jsLength`).
* An optional field (`undefined`/`null`) is an `Option`.
* Calls to the speech engine and to the entity store are recorded as lists of commands.
* An awaited external call either resolves or rejects; the answer is a parameter of the
  handler. An async handler returns the calls it made and how it settles: `Except.ok`
  with the state it leaves, or `Except.error` for a rejected promise.
* Of the state cells only the values at the end of a handler are modelled (the status
  texts shown while a generation runs are not).
-/

namespace VideoGPT

/-! ## Data model -/

/-- Number of UTF-16 code units of a string, the value of JavaScript's `.length`. -/
def jsLength (s : String) : Nat :=
  (s.toList.map (fun c => if c.toNat < 65536 then 1 else 2)).sum

/-- The `VideoExplanation` entity as the pages and the player read it. -/
structure Explanation where
  id : String
  topic : String
  category : String
  complexity_level : String
  script : Option String
  key_points : Option (List String)
  duration_estimate : ℚ
  image_urls : Option (List String)
  view_count : Option Nat
  deriving DecidableEq

/-- The five `useState` cells of `VideoPlayer`. -/
structure PlaybackState where
  isPlaying : Bool
  isMuted : Bool
  currentPoint : Int
  currentImageIndex : Int
  progress : ℚ
  deriving DecidableEq

/-- Initial values of the `useState` cells (lines 10-14). -/
def PlaybackState.initial : PlaybackState :=
  { isPlaying := false, isMuted := false, currentPoint := 0, currentImageIndex := 0,
    progress := 0 }

/-- The event object handed to `utterance.onboundary`. -/
structure BoundaryEvent where
  name : String
  charIndex : Nat
  deriving DecidableEq

/-- The flags of `window.speechSynthesis` that the component reads. -/
structure SpeechSynthesis where
  speaking : Bool
  paused : Bool
  deriving DecidableEq

/-- A `SpeechSynthesisUtterance` as the component configures it. -/
structure Utterance where
  text : String
  volume : ℚ
  rate : ℚ
  pitch : ℚ
  deriving DecidableEq

/-- Calls the component makes on `speechRef.current`. -/
inductive Command where
  | cancel
  | speak (u : Utterance)
  | resume
  | pause
  deriving DecidableEq

/-! ## `VideoPlayer.jsx` -/

/-- JavaScript truthiness of `explanation.script`: present and not the empty string. -/
def scriptTruthy (explanation : Explanation) : Bool :=
  match explanation.script with
  | none => false
  | some t => !(jsLength t == 0)

/-- The value of `explanation.script.length` inside the utterance callbacks. -/
def scriptLength (explanation : Explanation) : Nat :=
  jsLength (explanation.script.getD "")

/-- The value of `explanation.key_points?.length`, `none` standing for `undefined`. -/
def keyPointsLength (explanation : Explanation) : Option Nat :=
  explanation.key_points.map List.length

/-- The value of `explanation.image_urls?.length`, `none` standing for `undefined`. -/
def imageUrlsLength (explanation : Explanation) : Option Nat :=
  explanation.image_urls.map List.length

/-- JavaScript `n || d` on an optional number: `d` when `n` is `undefined` or `0`. -/
def orDefault (n : Option Nat) (d : Nat) : Nat :=
  match n with
  | none => d
  | some k => if k = 0 then d else k

/-- The `utterance.onboundary` callback (lines 58-76). -/
def onboundary (explanation : Explanation) (event : BoundaryEvent) (s : PlaybackState) :
    PlaybackState :=
  if event.name = "word" then
    let charIndex : ℚ := event.charIndex
    let scriptLength : ℚ := scriptLength explanation
    let currentProgress : ℚ := (charIndex / scriptLength) * 100
    let totalPoints : Int := orDefault (keyPointsLength explanation) 1
    let totalImages : Int := orDefault (imageUrlsLength explanation) 1
    let pointIndex : Int := Int.floor ((currentProgress / 100) * totalPoints)
    let imageIndex : Int := Int.floor ((currentProgress / 100) * totalImages)
    { s with
      progress := currentProgress
      currentPoint := min pointIndex (totalPoints - 1)
      currentImageIndex := min imageIndex (totalImages - 1) }
  else s

/-- The `utterance.onend` callback (lines 78-83). -/
def onend (explanation : Explanation) (s : PlaybackState) : PlaybackState :=
  { s with
    isPlaying := false
    progress := 100
    currentPoint := (orDefault (keyPointsLength explanation) 0 : Int) - 1
    currentImageIndex := (orDefault (imageUrlsLength explanation) 0 : Int) - 1 }

/-- The `utterance.onerror` callback (lines 84-87); the console message is not modelled. -/
def onerror (s : PlaybackState) : PlaybackState :=
  { s with isPlaying := false }

/-- The handler `togglePlay` (lines 105-107), behind both the Play and the Pause button. -/
def togglePlay (s : PlaybackState) : PlaybackState :=
  { s with isPlaying := !s.isPlaying }

/-- The setter `setIsMuted`. -/
def setIsMuted (b : Bool) (s : PlaybackState) : PlaybackState :=
  { s with isMuted := b }

/-- The mute button's `onClick` (line 262). -/
def toggleMute (s : PlaybackState) : PlaybackState :=
  setIsMuted (!s.isMuted) s

/-- What one call of `replay` produces besides the new state. -/
structure ReplayResult where
  state : PlaybackState
  commands : List Command
  /-- Delays, in milliseconds, of the scheduled `setIsPlaying(true)` callbacks. -/
  timeouts : List Nat
  /-- Number of invocations of the `onReplay` prop. -/
  onReplayCalls : Nat
  deriving DecidableEq

/-- The handler `replay` (lines 109-121). `hasOnReplay` tells whether the parent passed
the `onReplay` prop. -/
def replay (hasOnReplay : Bool) (speech : SpeechSynthesis) (s : PlaybackState) :
    ReplayResult :=
  { state := { s with progress := 0, currentPoint := 0, currentImageIndex := 0 }
    commands := if speech.speaking then [Command.cancel] else []
    timeouts := [100]
    onReplayCalls := if hasOnReplay then 1 else 0 }

/-- The callback scheduled by `replay` (line 118). -/
def replayTimeout (s : PlaybackState) : PlaybackState :=
  { s with isPlaying := true }

/-- Result of one run of the playback effect. -/
structure EffectResult where
  state : PlaybackState
  utteranceRef : Option Utterance
  commands : List Command
  deriving DecidableEq

/-- The effect with dependencies `[isPlaying, explanation, isMuted]` (lines 28-97).
Voice selection does not touch the state and is left out. -/
def playbackEffect (explanation : Option Explanation) (speech : SpeechSynthesis)
    (utteranceRef : Option Utterance) (s : PlaybackState) : EffectResult :=
  match explanation with
  | none => { state := { s with isPlaying := false }, utteranceRef := utteranceRef,
              commands := [] }
  | some ex =>
    if !scriptTruthy ex then
      { state := { s with isPlaying := false }, utteranceRef := utteranceRef, commands := [] }
    else if s.isPlaying then
      if speech.paused && utteranceRef.isSome then
        { state := s, utteranceRef := utteranceRef, commands := [Command.resume] }
      else if !speech.speaking then
        let utterance : Utterance :=
          { text := ex.script.getD "", volume := if s.isMuted then 0 else 1,
            rate := 9 / 10, pitch := 1 }
        { state := s, utteranceRef := some utterance,
          commands := [Command.cancel, Command.speak utterance] }
      else
        { state := s, utteranceRef := utteranceRef, commands := [] }
    else
      if speech.speaking && !speech.paused then
        { state := s, utteranceRef := utteranceRef, commands := [Command.pause] }
      else
        { state := s, utteranceRef := utteranceRef, commands := [] }

/-- The effect with dependency `[isMuted]` (lines 99-103). -/
def muteEffect (utteranceRef : Option Utterance) (s : PlaybackState) : Option Utterance :=
  utteranceRef.map (fun u => { u with volume := if s.isMuted then 0 else 1 })

/-- A user command or an engine callback reaching the component. The Play and the Pause
button are the same handler, `togglePlay`. -/
inductive Action where
  | togglePlay
  | replay (hasOnReplay : Bool) (speech : SpeechSynthesis)
  | replayTimeout
  | setMuted (b : Bool)
  | boundary (event : BoundaryEvent)
  | completion
  | engineError
  | effect (speech : SpeechSynthesis) (utteranceRef : Option Utterance)
  deriving DecidableEq

/-- State after one action on the player of `explanation`. -/
def step (explanation : Explanation) (a : Action) (s : PlaybackState) : PlaybackState :=
  match a with
  | .togglePlay => togglePlay s
  | .replay hasOnReplay speech => (replay hasOnReplay speech s).state
  | .replayTimeout => replayTimeout s
  | .setMuted b => setIsMuted b s
  | .boundary event => onboundary explanation event s
  | .completion => onend explanation s
  | .engineError => onerror s
  | .effect speech utteranceRef =>
      (playbackEffect (some explanation) speech utteranceRef s).state

/-- State after a sequence of actions, oldest first. -/
def run (explanation : Explanation) (actions : List Action) (s : PlaybackState) :
    PlaybackState :=
  actions.foldl (fun t a => step explanation a t) s

/-- States after each of a sequence of boundary events of one utterance. -/
def boundaryTrace (explanation : Explanation) :
    PlaybackState → List BoundaryEvent → List PlaybackState
  | _, [] => []
  | s, e :: es =>
      onboundary explanation e s :: boundaryTrace explanation (onboundary explanation e s) es

/-- Componentwise order on what the boundary handler writes. -/
def PlaybackState.Le (a b : PlaybackState) : Prop :=
  a.progress ≤ b.progress ∧ a.currentPoint ≤ b.currentPoint ∧
    a.currentImageIndex ≤ b.currentImageIndex

/-- Bounds on the two indices for a record with `K` key points and `M` images. -/
def IndexBounds (K M : ℕ) (s : PlaybackState) : Prop :=
  0 ≤ s.currentPoint ∧ s.currentPoint ≤ (K : ℤ) - 1 ∧
    0 ≤ s.currentImageIndex ∧ s.currentImageIndex ≤ (M : ℤ) - 1

/-- The state `t` is what a word boundary event at offset `c` leaves behind. -/
def AtOffset (explanation : Explanation) (c : ℕ) (t : PlaybackState) : Prop :=
  ∃ (e : BoundaryEvent) (s₀ : PlaybackState),
    e.name = "word" ∧ e.charIndex = c ∧ t = onboundary explanation e s₀

/-! ## `Pages/Generate.jsx`: the replay handler -/

/-- The argument object of `VideoExplanation.create` (Generate.jsx, lines 64-73). -/
structure CreateFields where
  topic : String
  category : String
  complexity_level : String
  script : Option String
  key_points : List String
  duration_estimate : Option ℚ
  image_urls : List String
  view_count : Nat
  deriving DecidableEq

/-- A call on the `VideoExplanation` entity store. -/
inductive StoreCall where
  | update (id : String) (view_count : Nat)
  | list (sortKey : String)
  | create (fields : CreateFields)
  deriving DecidableEq

/-- The `useState` cells of `GeneratePage`. -/
structure GeneratePage where
  isGenerating : Bool
  generationStatus : String
  currentExplanation : Option Explanation
  error : Option String
  deriving DecidableEq

/-- The handler `handleReplay` (lines 85-91) with a store call that succeeds: the page
state it leaves and the store calls it makes. -/
def handleReplay (page : GeneratePage) : GeneratePage × List StoreCall :=
  match page.currentExplanation with
  | none => (page, [])
  | some currentExplanation =>
      (page, [StoreCall.update currentExplanation.id
                (orDefault currentExplanation.view_count 0 + 1)])

/-- One click on Replay in the player rendered by `GeneratePage` (lines 119-122): the
player's `replay` runs with `onReplay = handleReplay`. The store calls are appended to
`log`. -/
def replayClick (speech : SpeechSynthesis)
    (x : GeneratePage × PlaybackState × List StoreCall) :
    GeneratePage × PlaybackState × List StoreCall :=
  let r := replay true speech x.2.1
  let h := if r.onReplayCalls = 0 then (x.1, []) else handleReplay x.1
  (h.1, r.state, x.2.2 ++ h.2)

/-- Some `n` successive clicks on Replay. -/
def replayClicks (speech : SpeechSynthesis) :
    Nat → GeneratePage × PlaybackState × List StoreCall →
      GeneratePage × PlaybackState × List StoreCall
  | 0, x => x
  | n + 1, x => replayClicks speech n (replayClick speech x)

/-- The record of the scenario in the specification: a script of 15 characters with three
key points and three images, viewed once. -/
def demoExplanation : Explanation :=
  { id := "rec-1", topic := "letters", category := "education",
    complexity_level := "beginner", script := some "AAAAABBBBBCCCCC",
    key_points := some ["A-point", "B-point", "C-point"], duration_estimate := 60,
    image_urls := some ["a.png", "b.png", "c.png"], view_count := some 1 }

/-- The generate page showing `demoExplanation`. -/
def demoPage : GeneratePage :=
  { isGenerating := false, generationStatus := "", currentExplanation := some demoExplanation,
    error := none }

/-! ## `VideoPlayer.jsx`: the play button seen as a handler run -/

/-- Everything `togglePlay` does besides the new state: it makes no engine call, schedules
no timer and does not call the `onReplay` prop. -/
def togglePlayResult (s : PlaybackState) : ReplayResult :=
  { state := togglePlay s, commands := [], timeouts := [], onReplayCalls := 0 }

/-- The utterance the playback effect builds (lines 39-44) for a script and a mute flag. -/
def newUtterance (explanation : Explanation) (isMuted : Bool) : Utterance :=
  { text := explanation.script.getD "", volume := if isMuted then 0 else 1, rate := 9 / 10,
    pitch := 1 }

/-! ## `Pages/Generate.jsx`: the generation pipeline -/

/-- The argument of `generateExplanation`, built by the topic form. -/
structure GenerateRequest where
  topic : String
  complexity : String
  category : String
  deriving DecidableEq

/-- The object `InvokeLLM` resolves to; a field the model left out is `none`. -/
structure LLMResponse where
  script : Option String
  key_points : Option (List String)
  duration_estimate : Option ℚ
  deriving DecidableEq

/-- The external services behind the awaited calls. `none` is a rejected promise.
`generateImage` is asked with the number of the call (from 0) and the prompt. -/
structure Services where
  invokeLLM : String → Option LLMResponse
  generateImage : Nat → String → Option String
  create : CreateFields → Option Explanation

/-- An awaited external call of the pipeline. -/
inductive PipelineCall where
  | invokeLLM (prompt : String)
  | generateImage (prompt : String)
  | store (call : StoreCall)
  deriving DecidableEq

/-- The prompt template of lines 21-41. -/
def llmPrompt (topic complexity category : String) : String :=
  "Create a direct, focused explanation for the topic: \"" ++ topic ++ "\". \n" ++
  "        \n" ++
  "        Complexity level: " ++ complexity ++ "\n" ++
  "        Category: " ++ category ++ "\n" ++
  "        \n" ++
  "        IMPORTANT GUIDELINES:\n" ++
  "        - Start directly with the topic explanation - NO generic introductions like \"welcome to the channel\", \"today we'll discuss\", etc.\n" ++
  "        - Begin immediately with engaging content about the topic\n" ++
  "        - Use a conversational, educational tone as if explaining to a friend\n" ++
  "        - Structure the content in clear, logical segments that flow naturally\n" ++
  "        - Include specific examples, analogies, and real-world applications\n" ++
  "        - Make it engaging but educational, not promotional\n" ++
  "        - Aim for 2-4 minutes of natural speaking content\n" ++
  "        - End with a clear, satisfying conclusion that reinforces key learnings\n" ++
  "        \n" ++
  "        The explanation should feel like a focused educational segment, not a YouTube video intro.\n" ++
  "        \n" ++
  "        Please provide:\n" ++
  "        1. A comprehensive script that flows naturally from concept to concept\n" ++
  "        2. Key learning points (4-6 main concepts, keep them concise and specific)\n" ++
  "        3. Estimated duration in seconds based on natural speaking pace"

/-- The prompt template of line 58, for one key point. -/
def imagePrompt (keyPoint topic : String) : String :=
  "Professional educational illustration for \"" ++ keyPoint ++ "\" related to \"" ++ topic ++
  "\". Style: clean, modern, informative, high-quality diagram or visualization. No text overlays. Focus on visual clarity and educational value. Professional documentary style."

/-- The loop of lines 55-61 from index `i` on, over the key points not yet visited, with
the URLs collected so far. It returns the image calls made and the final `imageUrls`, or
`none` when a call rejected and the loop was left. -/
def imageLoop (sv : Services) (topic : String) :
    List String → Nat → List String → List PipelineCall × Option (List String)
  | [], _, imageUrls => ([], some imageUrls)
  | k :: ks, i, imageUrls =>
    match sv.generateImage i (imagePrompt k topic) with
    | none => ([PipelineCall.generateImage (imagePrompt k topic)], none)
    | some url =>
      let r := imageLoop sv topic ks (i + 1) (imageUrls ++ [url])
      (PipelineCall.generateImage (imagePrompt k topic) :: r.1, r.2)

/-- The fields handed to `VideoExplanation.create` (lines 64-73). -/
def createFields (req : GenerateRequest) (response : LLMResponse) (keyPoints : List String)
    (imageUrls : List String) : CreateFields :=
  { topic := req.topic, category := req.category, complexity_level := req.complexity,
    script := response.script, key_points := keyPoints,
    duration_estimate := response.duration_estimate, image_urls := imageUrls,
    view_count := 1 }

/-- The body of the `try` block of `generateExplanation` (lines 19-75): the calls it makes
and either the created record or the error that leaves the block. -/
def generateTry (sv : Services) (req : GenerateRequest) :
    List PipelineCall × Except String Explanation :=
  let prompt := llmPrompt req.topic req.complexity req.category
  match sv.invokeLLM prompt with
  | none => ([PipelineCall.invokeLLM prompt], Except.error "InvokeLLM rejected")
  | some response =>
    let keyPoints := response.key_points.getD []
    match imageLoop sv req.topic keyPoints 0 [] with
    | (calls, none) => (PipelineCall.invokeLLM prompt :: calls, Except.error "GenerateImage rejected")
    | (calls, some imageUrls) =>
      let fields := createFields req response keyPoints imageUrls
      match sv.create fields with
      | none =>
        (PipelineCall.invokeLLM prompt :: calls ++ [PipelineCall.store (StoreCall.create fields)],
          Except.error "create rejected")
      | some explanation =>
        (PipelineCall.invokeLLM prompt :: calls ++ [PipelineCall.store (StoreCall.create fields)],
          Except.ok explanation)

/-- The handler `generateExplanation` (lines 14-83): the calls it makes and how the async
function settles, `Except.ok` with the page state it leaves or `Except.error` for a
rejection. -/
def generateExplanation (sv : Services) (req : GenerateRequest) (page : GeneratePage) :
    List PipelineCall × Except String GeneratePage :=
  let started : GeneratePage := { page with isGenerating := true, error := none }
  match generateTry sv req with
  | (calls, Except.ok explanation) =>
    (calls, Except.ok { started with currentExplanation := some explanation,
                                     isGenerating := false, generationStatus := "" })
  | (calls, Except.error _) =>
    (calls, Except.ok { started with
                        error := some "Failed to generate explanation. Please try again.",
                        isGenerating := false, generationStatus := "" })

/-- The handler `handleReplay` (lines 85-91) as an async function: the store calls it
makes and how it settles when `update` resolves (`updateOk`) or rejects. -/
def handleReplayAsync (updateOk : Bool) (page : GeneratePage) :
    List StoreCall × Except String GeneratePage :=
  match page.currentExplanation with
  | none => ([], Except.ok page)
  | some currentExplanation =>
    ([StoreCall.update currentExplanation.id (orDefault currentExplanation.view_count 0 + 1)],
      if updateOk then Except.ok page else Except.error "update rejected")

/-! ## `Pages/Library.jsx` -/

/-- The `useState` cells of `LibraryPage`. -/
structure LibraryPage where
  explanations : List Explanation
  filteredExplanations : List Explanation
  selectedExplanation : Option Explanation
  searchQuery : String
  categoryFilter : String
  complexityFilter : String
  isLoading : Bool
  deriving DecidableEq

/-- Initial values of the cells (lines 16-22). -/
def LibraryPage.initial : LibraryPage :=
  { explanations := [], filteredExplanations := [], selectedExplanation := none,
    searchQuery := "", categoryFilter := "all", complexityFilter := "all", isLoading := true }

/-- The function `loadExplanations` (lines 28-36); `listResult` is what
`VideoExplanation.list` settles with, `none` for a rejection. -/
def loadExplanations (listResult : Option (List Explanation)) (page : LibraryPage) :
    List StoreCall × Except String LibraryPage :=
  match listResult with
  | some data =>
    ([StoreCall.list "-created_date"],
      Except.ok { page with explanations := data, isLoading := false })
  | none =>
    ([StoreCall.list "-created_date"], Except.ok { page with isLoading := false })

/-- JavaScript `s.includes(t)`. -/
def includes (s t : String) : Bool :=
  decide (t.toList <:+: s.toList)

/-- The predicate of the search filter (lines 42-45). -/
def matchesSearch (toLowerCase : String → String) (searchQuery : String)
    (exp : Explanation) : Bool :=
  includes (toLowerCase exp.topic) (toLowerCase searchQuery) ||
    (match exp.script with
     | none => false
     | some script =>
       !(script == "") && includes (toLowerCase script) (toLowerCase searchQuery))

/-- The list `filterExplanations` (lines 38-57) hands to `setFilteredExplanations`.
`toLowerCase` is the string method of the JavaScript runtime. -/
def filterExplanations (toLowerCase : String → String) (explanations : List Explanation)
    (searchQuery categoryFilter complexityFilter : String) : List Explanation :=
  let filtered := explanations
  let filtered :=
    if searchQuery ≠ "" then filtered.filter (matchesSearch toLowerCase searchQuery)
    else filtered
  let filtered :=
    if categoryFilter ≠ "all" then filtered.filter (fun exp => exp.category == categoryFilter)
    else filtered
  let filtered :=
    if complexityFilter ≠ "all" then
      filtered.filter (fun exp => exp.complexity_level == complexityFilter)
    else filtered
  filtered

/-- The condition of the specification for a record to be kept by the library filter: the
query is empty or occurs in the lower-cased topic or in the lower-cased script of a record
that has one, and each of the two filters is `"all"` or equals the record's value. -/
def keptBySpec (toLowerCase : String → String) (q c x : String) (r : Explanation) : Bool :=
  (q == "" || includes (toLowerCase r.topic) (toLowerCase q) ||
      (match r.script with
       | some script => includes (toLowerCase script) (toLowerCase q)
       | none => false)) &&
    (c == "all" || r.category == c) && (x == "all" || r.complexity_level == x)

/-- Lower-casing of the letters `A`-`Z`, character by character. -/
def asciiLower (s : String) : String :=
  String.mk (s.toList.map Char.toLower)

/-- The handler `handleExplanationClick` (lines 63-74): the store calls made and how the
async function settles. `updateOk` tells whether `update` resolves; `listResult` is the
answer to the reload that the handler starts without awaiting it. -/
def handleExplanationClick (updateOk : Bool) (listResult : Option (List Explanation))
    (explanation : Explanation) (page : LibraryPage) :
    List StoreCall × Except String LibraryPage :=
  let write := StoreCall.update explanation.id (orDefault explanation.view_count 0 + 1)
  if updateOk then
    let updatedExplanation : Explanation :=
      { explanation with view_count := some (orDefault explanation.view_count 0 + 1) }
    let selected : LibraryPage := { page with selectedExplanation := some updatedExplanation }
    let reload := loadExplanations listResult selected
    (write :: reload.1, reload.2)
  else
    ([write], Except.error "update rejected")

/-- A library of two records. -/
def demoLibrary : List Explanation :=
  [demoExplanation,
   { id := "rec-2", topic := "Black Holes", category := "science",
     complexity_level := "advanced", script := some "", key_points := some ["horizon"],
     duration_estimate := 90, image_urls := some ["h.png"], view_count := none }]

/-- The library page after `demoLibrary` has been loaded. -/
def demoLibraryPage : LibraryPage :=
  { explanations := demoLibrary, filteredExplanations := demoLibrary,
    selectedExplanation := none, searchQuery := "", categoryFilter := "all",
    complexityFilter := "all", isLoading := false }

/-- Services whose calls all succeed; the model answers without a script. -/
def demoServices : Services :=
  { invokeLLM := fun _ =>
      some { script := none, key_points := some ["A-point", "B-point"],
             duration_estimate := some 60 }
    generateImage := fun i _ => some (if i = 0 then "a.png" else "b.png")
    create := fun f =>
      some { id := "rec-9", topic := f.topic, category := f.category,
             complexity_level := f.complexity_level, script := f.script,
             key_points := some f.key_points, duration_estimate := f.duration_estimate.getD 0,
             image_urls := some f.image_urls, view_count := some f.view_count } }

/-- Services like `demoServices` whose second image call rejects. -/
def demoServicesImageFails : Services :=
  { demoServices with generateImage := fun i _ => if i = 0 then some "a.png" else none }

/-- The request of the scenarios. -/
def demoRequest : GenerateRequest :=
  { topic := "letters", complexity := "beginner", category := "education" }

/-- The generate page before any generation (lines 9-12). -/
def GeneratePage.initial : GeneratePage :=
  { isGenerating := false, generationStatus := "", currentExplanation := none, error := none }

/-- Whether a call of the pipeline goes to the entity store. -/
def isStoreCall : PipelineCall → Bool
  | PipelineCall.store _ => true
  | _ => false

/-- Whether a call of the pipeline goes to the image service. -/
def isImageCall : PipelineCall → Bool
  | PipelineCall.generateImage _ => true
  | _ => false

/-- The image call the loop issues for one key point. -/
def imageCall (topic keyPoint : String) : PipelineCall :=
  PipelineCall.generateImage (imagePrompt keyPoint topic)

/-! ## `TopicInput.jsx` -/

/-- The characters `String.prototype.trim` removes: the white space and line terminator
code points of ECMAScript. -/
def isJsWhiteSpace (c : Char) : Bool :=
  c.toNat == 0x9 || c.toNat == 0xA || c.toNat == 0xB || c.toNat == 0xC || c.toNat == 0xD ||
    c.toNat == 0x20 || c.toNat == 0xA0 || c.toNat == 0x1680 ||
    (0x2000 ≤ c.toNat && c.toNat ≤ 0x200A) || c.toNat == 0x2028 || c.toNat == 0x2029 ||
    c.toNat == 0x202F || c.toNat == 0x205F || c.toNat == 0x3000 || c.toNat == 0xFEFF

/-- Dropping the white space at both ends of a list of characters. -/
def trimChars (l : List Char) : List Char :=
  ((l.dropWhile isJsWhiteSpace).reverse.dropWhile isJsWhiteSpace).reverse

/-- JavaScript `s.trim()`. -/
def jsTrim (s : String) : String :=
  String.mk (trimChars s.toList)

/-- The `useState` cells of `TopicInput` (lines 20-22). -/
structure TopicInputState where
  topic : String
  complexity : String
  category : String
  deriving DecidableEq

/-- Initial values of the cells. -/
def TopicInputState.initial : TopicInputState :=
  { topic := "", complexity := "beginner", category := "science" }

/-- The handler `handleSubmit` (lines 24-29): the arguments of its calls of the
`onGenerate` prop, in order. -/
def handleSubmit (s : TopicInputState) : List GenerateRequest :=
  if jsTrim s.topic ≠ "" then
    [{ topic := jsTrim s.topic, complexity := s.complexity, category := s.category }]
  else []

/-- The `disabled` attribute of the submit button (line 101). -/
def submitDisabled (s : TopicInputState) (isGenerating : Bool) : Bool :=
  (jsTrim s.topic == "") || isGenerating

/-! ## `VideoPlayer.jsx`: the boundary handler in double precision -/

/-- Rounding a rational to the nearest integer, a tie going to the even one. -/
def roundHalfEven (q : ℚ) : ℤ :=
  if q - ⌊q⌋ < 1 / 2 then ⌊q⌋
  else if 1 / 2 < q - ⌊q⌋ then ⌊q⌋ + 1
  else if ⌊q⌋ % 2 = 0 then ⌊q⌋ else ⌊q⌋ + 1

/-- The value a JavaScript number takes for the exact result `x` of one arithmetic
operation: the nearest IEEE 754 double, with 53 significant bits and ties to even. The
exponent range is not modelled, so there is neither overflow nor underflow. -/
def roundDouble (x : ℚ) : ℚ :=
  if x = 0 then 0
  else (roundHalfEven (x * 2 ^ (52 - Int.log 2 |x|)) : ℚ) / 2 ^ (52 - Int.log 2 |x|)

/-- The `utterance.onboundary` callback (lines 58-76) with the result of every division
and multiplication rounded by `fl`. With `fl = id` this is `onboundary`. -/
def onboundaryRounded (fl : ℚ → ℚ) (explanation : Explanation) (event : BoundaryEvent)
    (s : PlaybackState) : PlaybackState :=
  if event.name = "word" then
    let charIndex : ℚ := event.charIndex
    let scriptLength : ℚ := scriptLength explanation
    let currentProgress : ℚ := fl (fl (charIndex / scriptLength) * 100)
    let totalPoints : Int := orDefault (keyPointsLength explanation) 1
    let totalImages : Int := orDefault (imageUrlsLength explanation) 1
    let pointIndex : Int := Int.floor (fl (fl (currentProgress / 100) * totalPoints))
    let imageIndex : Int := Int.floor (fl (fl (currentProgress / 100) * totalImages))
    { s with
      progress := currentProgress
      currentPoint := min pointIndex (totalPoints - 1)
      currentImageIndex := min imageIndex (totalImages - 1) }
  else s

/-- The `utterance.onboundary` callback as the runtime evaluates it, in doubles. -/
def onboundaryDouble (explanation : Explanation) (event : BoundaryEvent)
    (s : PlaybackState) : PlaybackState :=
  onboundaryRounded roundDouble explanation event s

/-- The number the handler floors to get an index: `((c / L) * 100 / 100) * n`, every
operation rounded by `fl`. -/
def scaledRounded (fl : ℚ → ℚ) (c L n : ℚ) : ℚ :=
  fl (fl (fl (fl (c / L) * 100) / 100) * n)

/-! ## Auxiliary facts about the boundary handler -/

theorem orDefault_one_pos (n : Option Nat) : 1 ≤ orDefault n 1 := by
  unfold orDefault
  cases n with
  | none => exact le_refl 1
  | some k =>
    by_cases hk : k = 0
    · simp [hk]
    · simp only [hk, if_false]; omega

theorem orDefault_zero (n : Option Nat) : orDefault n 0 = n.getD 0 := by
  unfold orDefault
  cases n with
  | none => rfl
  | some k => by_cases hk : k = 0 <;> simp [hk]

theorem orDefault_of_pos (k d : Nat) (hk : 1 ≤ k) : orDefault (some k) d = k := by
  unfold orDefault
  have : k ≠ 0 := by omega
  simp [this]

/-- The fraction the handler floors is `charIndex * total / scriptLength`. -/
theorem scaled_fraction (c L K : ℚ) : (c / L * 100) / 100 * K = c * K / L := by
  ring

theorem onboundary_word (explanation : Explanation) (event : BoundaryEvent)
    (s : PlaybackState) (hw : event.name = "word") :
    onboundary explanation event s =
      { s with
        progress := (event.charIndex : ℚ) / (scriptLength explanation : ℚ) * 100
        currentPoint :=
          min ⌊((event.charIndex : ℚ) * ((orDefault (keyPointsLength explanation) 1 : ℕ) : ℚ)
                / (scriptLength explanation : ℚ))⌋
              (((orDefault (keyPointsLength explanation) 1 : ℕ) : ℤ) - 1)
        currentImageIndex :=
          min ⌊((event.charIndex : ℚ) * ((orDefault (imageUrlsLength explanation) 1 : ℕ) : ℚ)
                / (scriptLength explanation : ℚ))⌋
              (((orDefault (imageUrlsLength explanation) 1 : ℕ) : ℤ) - 1) } := by
  unfold onboundary
  simp only [hw, if_true]
  simp only [Int.cast_natCast, scaled_fraction]

theorem onboundary_not_word (explanation : Explanation) (event : BoundaryEvent)
    (s : PlaybackState) (hw : event.name ≠ "word") :
    onboundary explanation event s = s := by
  unfold onboundary
  simp [hw]

theorem onboundary_progress (explanation : Explanation) (event : BoundaryEvent)
    (s : PlaybackState) (hw : event.name = "word") :
    (onboundary explanation event s).progress =
      (event.charIndex : ℚ) / (scriptLength explanation : ℚ) * 100 := by
  rw [onboundary_word explanation event s hw]

theorem onboundary_currentPoint (explanation : Explanation) (event : BoundaryEvent)
    (s : PlaybackState) (hw : event.name = "word") :
    (onboundary explanation event s).currentPoint =
      min ⌊((event.charIndex : ℚ) * ((orDefault (keyPointsLength explanation) 1 : ℕ) : ℚ)
            / (scriptLength explanation : ℚ))⌋
          (((orDefault (keyPointsLength explanation) 1 : ℕ) : ℤ) - 1) := by
  rw [onboundary_word explanation event s hw]

theorem onboundary_currentImageIndex (explanation : Explanation) (event : BoundaryEvent)
    (s : PlaybackState) (hw : event.name = "word") :
    (onboundary explanation event s).currentImageIndex =
      min ⌊((event.charIndex : ℚ) * ((orDefault (imageUrlsLength explanation) 1 : ℕ) : ℚ)
            / (scriptLength explanation : ℚ))⌋
          (((orDefault (imageUrlsLength explanation) 1 : ℕ) : ℤ) - 1) := by
  rw [onboundary_word explanation event s hw]

/-- The clamped index `min ⌊c * n / L⌋ (n - 1)` lies in `[0, n - 1]` when `n ≥ 1`. -/
theorem clamped_index_bounds (c n L : ℕ) (hn : 1 ≤ n) :
    0 ≤ min ⌊((c : ℚ) * (n : ℚ) / (L : ℚ))⌋ ((n : ℤ) - 1) ∧
      min ⌊((c : ℚ) * (n : ℚ) / (L : ℚ))⌋ ((n : ℤ) - 1) ≤ (n : ℤ) - 1 := by
  refine ⟨le_min ?_ ?_, min_le_right _ _⟩
  · exact Int.floor_nonneg.2 (by positivity)
  · omega

/-- The clamped index is monotone in the character offset. -/
theorem clamped_index_mono (c₁ c₂ n L : ℕ) (h : c₁ ≤ c₂) :
    min ⌊((c₁ : ℚ) * (n : ℚ) / (L : ℚ))⌋ ((n : ℤ) - 1) ≤
      min ⌊((c₂ : ℚ) * (n : ℚ) / (L : ℚ))⌋ ((n : ℤ) - 1) := by
  apply min_le_min _ (le_refl _)
  apply Int.floor_mono
  have h' : (c₁ : ℚ) ≤ (c₂ : ℚ) := by exact_mod_cast h
  have hn : (0 : ℚ) ≤ (n : ℚ) := by positivity
  have hL : (0 : ℚ) ≤ (L : ℚ) := by positivity
  exact div_le_div_of_nonneg_right (mul_le_mul_of_nonneg_right h' hn) hL

/-- The progress value is monotone in the character offset. -/
theorem progress_mono (c₁ c₂ L : ℕ) (h : c₁ ≤ c₂) :
    (c₁ : ℚ) / (L : ℚ) * 100 ≤ (c₂ : ℚ) / (L : ℚ) * 100 := by
  have h' : (c₁ : ℚ) ≤ (c₂ : ℚ) := by exact_mod_cast h
  have hL : (0 : ℚ) ≤ (L : ℚ) := by positivity
  exact mul_le_mul_of_nonneg_right (div_le_div_of_nonneg_right h' hL) (by norm_num)

/-- Two word events in offset order give states in order, whatever the states before. -/
theorem onboundary_le_of_le (explanation : Explanation) (e₁ e₂ : BoundaryEvent)
    (s₁ s₂ : PlaybackState) (h₁ : e₁.name = "word") (h₂ : e₂.name = "word")
    (h : e₁.charIndex ≤ e₂.charIndex) :
    (onboundary explanation e₁ s₁).Le (onboundary explanation e₂ s₂) := by
  refine ⟨?_, ?_, ?_⟩
  · rw [onboundary_progress _ _ _ h₁, onboundary_progress _ _ _ h₂]
    exact progress_mono _ _ _ h
  · rw [onboundary_currentPoint _ _ _ h₁, onboundary_currentPoint _ _ _ h₂]
    exact clamped_index_mono _ _ _ _ h
  · rw [onboundary_currentImageIndex _ _ _ h₁, onboundary_currentImageIndex _ _ _ h₂]
    exact clamped_index_mono _ _ _ _ h

/-- The playback effect writes none of the progress and index cells. -/
theorem playbackEffect_frame (explanation : Option Explanation) (speech : SpeechSynthesis)
    (utteranceRef : Option Utterance) (s : PlaybackState) :
    (playbackEffect explanation speech utteranceRef s).state.progress = s.progress ∧
    (playbackEffect explanation speech utteranceRef s).state.currentPoint = s.currentPoint ∧
    (playbackEffect explanation speech utteranceRef s).state.currentImageIndex =
      s.currentImageIndex ∧
    (playbackEffect explanation speech utteranceRef s).state.isMuted = s.isMuted := by
  unfold playbackEffect
  cases explanation with
  | none => exact ⟨rfl, rfl, rfl, rfl⟩
  | some ex =>
    dsimp only
    split_ifs <;> exact ⟨rfl, rfl, rfl, rfl⟩

theorem step_preserves_bounds (explanation : Explanation) (kp imgs : List String)
    (hk : explanation.key_points = some kp) (hK : 1 ≤ kp.length)
    (hi : explanation.image_urls = some imgs) (hM : 1 ≤ imgs.length)
    (a : Action) (s : PlaybackState) (hs : IndexBounds kp.length imgs.length s) :
    IndexBounds kp.length imgs.length (step explanation a s) := by
  have hkl : orDefault (keyPointsLength explanation) 1 = kp.length := by
    simp only [keyPointsLength, hk, Option.map_some']
    exact orDefault_of_pos _ _ hK
  have hil : orDefault (imageUrlsLength explanation) 1 = imgs.length := by
    simp only [imageUrlsLength, hi, Option.map_some']
    exact orDefault_of_pos _ _ hM
  have hkl0 : orDefault (keyPointsLength explanation) 0 = kp.length := by
    simp only [keyPointsLength, hk, Option.map_some']
    exact orDefault_of_pos _ _ hK
  have hil0 : orDefault (imageUrlsLength explanation) 0 = imgs.length := by
    simp only [imageUrlsLength, hi, Option.map_some']
    exact orDefault_of_pos _ _ hM
  obtain ⟨h1, h2, h3, h4⟩ := hs
  cases a with
  | togglePlay => exact ⟨h1, h2, h3, h4⟩
  | replay hasOnReplay speech =>
    refine ⟨le_refl _, ?_, le_refl _, ?_⟩
    · show (0 : ℤ) ≤ (kp.length : ℤ) - 1
      omega
    · show (0 : ℤ) ≤ (imgs.length : ℤ) - 1
      omega
  | replayTimeout => exact ⟨h1, h2, h3, h4⟩
  | setMuted b => exact ⟨h1, h2, h3, h4⟩
  | boundary event =>
    by_cases hw : event.name = "word"
    · have hp := clamped_index_bounds event.charIndex kp.length (scriptLength explanation) hK
      have hq := clamped_index_bounds event.charIndex imgs.length (scriptLength explanation) hM
      unfold IndexBounds step
      dsimp only
      rw [onboundary_currentPoint _ _ _ hw, onboundary_currentImageIndex _ _ _ hw, hkl, hil]
      exact ⟨hp.1, hp.2, hq.1, hq.2⟩
    · unfold step
      dsimp only
      rw [onboundary_not_word _ _ _ hw]
      exact ⟨h1, h2, h3, h4⟩
  | completion =>
    unfold IndexBounds step onend
    dsimp only
    rw [hkl0, hil0]
    refine ⟨?_, le_refl _, ?_, le_refl _⟩ <;> omega
  | engineError => exact ⟨h1, h2, h3, h4⟩
  | effect speech utteranceRef =>
    obtain ⟨-, e2, e3, -⟩ := playbackEffect_frame (some explanation) speech utteranceRef s
    unfold IndexBounds step
    dsimp only
    rw [e2, e3]
    exact ⟨h1, h2, h3, h4⟩

theorem run_preserves_bounds (explanation : Explanation) (kp imgs : List String)
    (hk : explanation.key_points = some kp) (hK : 1 ≤ kp.length)
    (hi : explanation.image_urls = some imgs) (hM : 1 ≤ imgs.length)
    (actions : List Action) :
    ∀ s : PlaybackState, IndexBounds kp.length imgs.length s →
      IndexBounds kp.length imgs.length (run explanation actions s) := by
  induction actions with
  | nil => intro s hs; exact hs
  | cons a rest ih =>
    intro s hs
    exact ih (step explanation a s) (step_preserves_bounds explanation kp imgs hk hK hi hM a s hs)

theorem atOffset_le (explanation : Explanation) (c₁ c₂ : ℕ) (t₁ t₂ : PlaybackState)
    (h₁ : AtOffset explanation c₁ t₁) (h₂ : AtOffset explanation c₂ t₂) (h : c₁ ≤ c₂) :
    t₁.Le t₂ := by
  obtain ⟨e₁, s₁, hw₁, hc₁, rfl⟩ := h₁
  obtain ⟨e₂, s₂, hw₂, hc₂, rfl⟩ := h₂
  exact onboundary_le_of_le explanation e₁ e₂ s₁ s₂ hw₁ hw₂ (by omega)

/-- After an event at offset `≥ c`, a state at offset `c` is at some offset `≥ c`. -/
theorem atOffset_onboundary (explanation : Explanation) (c : ℕ) (t : PlaybackState)
    (e : BoundaryEvent) (ht : AtOffset explanation c t) (hc : c ≤ e.charIndex) :
    ∃ c', c ≤ c' ∧ c' ≤ e.charIndex ∧ AtOffset explanation c' (onboundary explanation e t) := by
  by_cases hw : e.name = "word"
  · exact ⟨e.charIndex, hc, le_refl _, e, t, hw, rfl, rfl⟩
  · rw [onboundary_not_word _ _ _ hw]
    exact ⟨c, le_refl _, hc, ht⟩

theorem boundaryTrace_atOffset (explanation : Explanation) (rest : List BoundaryEvent) :
    ∀ (c : ℕ) (t : PlaybackState), AtOffset explanation c t →
      (∀ x ∈ rest, c ≤ x.charIndex) →
      rest.Pairwise (fun a b => a.charIndex ≤ b.charIndex) →
      ∀ u ∈ boundaryTrace explanation t rest, ∃ c', c ≤ c' ∧ AtOffset explanation c' u := by
  induction rest with
  | nil => intro c t _ _ _ u hu; simp [boundaryTrace] at hu
  | cons e es ih =>
    intro c t ht hge hs u hu
    obtain ⟨c', h1, h2, h3⟩ := atOffset_onboundary explanation c t e ht
      (hge e (List.mem_cons_self _ _))
    rw [List.pairwise_cons] at hs
    simp only [boundaryTrace, List.mem_cons] at hu
    rcases hu with rfl | hu
    · exact ⟨c', h1, h3⟩
    · have hge' : ∀ x ∈ es, c' ≤ x.charIndex := fun x hx => le_trans h2 (hs.1 x hx)
      obtain ⟨c'', h4, h5⟩ := ih c' _ h3 hge' hs.2 u hu
      exact ⟨c'', le_trans h1 h4, h5⟩

theorem boundaryTrace_pairwise (explanation : Explanation) (rest : List BoundaryEvent) :
    ∀ (c : ℕ) (t : PlaybackState), AtOffset explanation c t →
      (∀ x ∈ rest, c ≤ x.charIndex) →
      rest.Pairwise (fun a b => a.charIndex ≤ b.charIndex) →
      (t :: boundaryTrace explanation t rest).Pairwise PlaybackState.Le := by
  induction rest with
  | nil => intro c t _ _ _; simp [boundaryTrace]
  | cons e es ih =>
    intro c t ht hge hs
    rw [List.pairwise_cons]
    constructor
    · intro u hu
      obtain ⟨c', h1, h2⟩ := boundaryTrace_atOffset explanation (e :: es) c t ht hge hs u hu
      exact atOffset_le explanation c c' t u ht h2 h1
    · obtain ⟨c', _, h2, h3⟩ := atOffset_onboundary explanation c t e ht
        (hge e (List.mem_cons_self _ _))
      rw [List.pairwise_cons] at hs
      have hge' : ∀ x ∈ es, c' ≤ x.charIndex := fun x hx => le_trans h2 (hs.1 x hx)
      exact ih c' _ h3 hge' hs.2

theorem floor_scaled (c n L : ℕ) :
    ⌊((c : ℚ) * (n : ℚ) / (L : ℚ))⌋ = ((c * n / L : ℕ) : ℤ) := by
  rw [← Nat.cast_mul, Rat.floor_natCast_div_natCast]
  norm_cast

/-- The replay handler of the generate page never changes the page state. -/
theorem handleReplay_page (page : GeneratePage) : (handleReplay page).1 = page := by
  unfold handleReplay
  cases page.currentExplanation <;> rfl

/-- Store calls of `n` successive replays on an opened record: `n` times the same write. -/
theorem replayClicks_log (speech : SpeechSynthesis) (page : GeneratePage)
    (ex : Explanation) (hpage : page.currentExplanation = some ex) (n : ℕ) :
    ∀ (s : PlaybackState) (log : List StoreCall),
      (replayClicks speech n (page, s, log)).2.2 =
        log ++ List.replicate n (StoreCall.update ex.id (orDefault ex.view_count 0 + 1)) := by
  induction n with
  | zero => intro s log; simp [replayClicks]
  | succ k ih =>
    intro s log
    have hstep : replayClick speech (page, s, log) =
        (page, (replay true speech s).state,
          log ++ [StoreCall.update ex.id (orDefault ex.view_count 0 + 1)]) := by
      simp [replayClick, replay, handleReplay, hpage]
    simp only [replayClicks, hstep, ih]
    rw [List.replicate_succ, List.append_assoc]
    rfl

/-! ## Replay -/

/-- C1: for every playback state, `replay()` leaves progress, current point and current
image index at 0 and schedules one delayed step; after that step `isPlaying` is true and
the three values are still 0 (the mute flag is kept). -/
theorem replay_resets_and_restarts (hasOnReplay : Bool) (speech : SpeechSynthesis)
    (s : PlaybackState) :
    (replay hasOnReplay speech s).state.progress = 0 ∧
    (replay hasOnReplay speech s).state.currentPoint = 0 ∧
    (replay hasOnReplay speech s).state.currentImageIndex = 0 ∧
    (replay hasOnReplay speech s).timeouts = [100] ∧
    replayTimeout (replay hasOnReplay speech s).state =
      { isPlaying := true, isMuted := s.isMuted, currentPoint := 0, currentImageIndex := 0,
        progress := 0 } :=
  ⟨rfl, rfl, rfl, rfl, rfl⟩

/-- C2 (the code at the failing input): on the generate page showing a record viewed once,
two successive replays both write `view_count = 2`; the second write is not 3. -/
theorem replay_twice_writes_same_count :
    (replayClicks ⟨true, false⟩ 2 (demoPage, PlaybackState.initial, [])).2.2 =
      [StoreCall.update "rec-1" 2, StoreCall.update "rec-1" 2] := by
  rw [replayClicks_log ⟨true, false⟩ demoPage demoExplanation rfl 2]
  decide

/-! ## Boundary events -/

/-- C3: for a script of length `L > 0` and a word boundary event with `charIndex ≤ L`, the
progress the handler sets is `100 * charIndex / L` and lies in `[0, 100]`. -/
theorem boundary_progress_in_range (explanation : Explanation) (event : BoundaryEvent)
    (s : PlaybackState) (hL : 0 < scriptLength explanation) (hw : event.name = "word")
    (hc : event.charIndex ≤ scriptLength explanation) :
    (onboundary explanation event s).progress =
        100 * (event.charIndex : ℚ) / (scriptLength explanation : ℚ) ∧
      0 ≤ (onboundary explanation event s).progress ∧
      (onboundary explanation event s).progress ≤ 100 := by
  have hLq : (0 : ℚ) < (scriptLength explanation : ℚ) := by exact_mod_cast hL
  have hcq : (event.charIndex : ℚ) ≤ (scriptLength explanation : ℚ) := by exact_mod_cast hc
  rw [onboundary_progress _ _ _ hw]
  refine ⟨by ring, by positivity, ?_⟩
  have h1 : (event.charIndex : ℚ) / (scriptLength explanation : ℚ) ≤ 1 :=
    (div_le_one hLq).2 hcq
  linarith

theorem boundary_progress_in_range_witness :
    (onboundary demoExplanation ⟨"word", 7⟩ PlaybackState.initial).progress =
        100 * ((7 : ℕ) : ℚ) / (scriptLength demoExplanation : ℚ) ∧
      0 ≤ (onboundary demoExplanation ⟨"word", 7⟩ PlaybackState.initial).progress ∧
      (onboundary demoExplanation ⟨"word", 7⟩ PlaybackState.initial).progress ≤ 100 :=
  boundary_progress_in_range demoExplanation ⟨"word", 7⟩ PlaybackState.initial
    (by decide) (by decide) (by decide)

/-- C4: for a record with `K ≥ 1` key points, `M ≥ 1` images and a script of length
`L > 0`, every state reached from the initial state by toggling play/pause, replay and its
delayed step, mute changes, boundary events with `charIndex ≤ L`, completion, engine errors
and runs of the playback effect has `0 ≤ currentPoint ≤ K - 1` and
`0 ≤ currentImageIndex ≤ M - 1`. -/
theorem index_bounds_invariant (explanation : Explanation) (kp imgs : List String)
    (hk : explanation.key_points = some kp) (hK : 1 ≤ kp.length)
    (hi : explanation.image_urls = some imgs) (hM : 1 ≤ imgs.length)
    (_hL : 0 < scriptLength explanation) (actions : List Action)
    (_hc : ∀ e, Action.boundary e ∈ actions → e.charIndex ≤ scriptLength explanation) :
    0 ≤ (run explanation actions PlaybackState.initial).currentPoint ∧
    (run explanation actions PlaybackState.initial).currentPoint ≤ (kp.length : ℤ) - 1 ∧
    0 ≤ (run explanation actions PlaybackState.initial).currentImageIndex ∧
    (run explanation actions PlaybackState.initial).currentImageIndex ≤
      (imgs.length : ℤ) - 1 := by
  apply run_preserves_bounds explanation kp imgs hk hK hi hM actions PlaybackState.initial
  refine ⟨le_refl _, ?_, le_refl _, ?_⟩
  · show (0 : ℤ) ≤ (kp.length : ℤ) - 1
    omega
  · show (0 : ℤ) ≤ (imgs.length : ℤ) - 1
    omega

theorem index_bounds_invariant_witness :
    IndexBounds 3 3
      (run demoExplanation
        [Action.togglePlay, Action.effect ⟨false, false⟩ none,
         Action.boundary ⟨"word", 7⟩, Action.setMuted true, Action.boundary ⟨"word", 15⟩,
         Action.completion, Action.replay true ⟨false, false⟩, Action.replayTimeout,
         Action.boundary ⟨"word", 0⟩, Action.engineError]
        PlaybackState.initial) :=
  index_bounds_invariant demoExplanation ["A-point", "B-point", "C-point"]
    ["a.png", "b.png", "c.png"] rfl (by decide) rfl (by decide) (by decide) _
    (by
      intro e he
      have hL : scriptLength demoExplanation = 15 := by decide
      simp at he
      rcases he with rfl | rfl | rfl <;> simp [hL])

/-- A state left by a word event is at least a state with progress and indices 0. -/
theorem zero_le_atOffset (explanation : Explanation) (c : ℕ) (s₀ u : PlaybackState)
    (h0 : s₀.progress = 0 ∧ s₀.currentPoint = 0 ∧ s₀.currentImageIndex = 0)
    (hu : AtOffset explanation c u) : s₀.Le u := by
  obtain ⟨e, t, hw, -, rfl⟩ := hu
  obtain ⟨hp, hc, hi⟩ := h0
  refine ⟨?_, ?_, ?_⟩
  · rw [hp, onboundary_progress _ _ _ hw]
    positivity
  · rw [hc, onboundary_currentPoint _ _ _ hw]
    exact (clamped_index_bounds _ _ _ (orDefault_one_pos _)).1
  · rw [hi, onboundary_currentImageIndex _ _ _ hw]
    exact (clamped_index_bounds _ _ _ (orDefault_one_pos _)).1

/-- From a state with progress and indices 0, boundary events in offset order never lower
progress or an index, the start state included. -/
theorem boundaryTrace_from_zero (explanation : Explanation) (es : List BoundaryEvent) :
    ∀ (s₀ : PlaybackState),
      (s₀.progress = 0 ∧ s₀.currentPoint = 0 ∧ s₀.currentImageIndex = 0) →
      es.Pairwise (fun a b => a.charIndex ≤ b.charIndex) →
      (s₀ :: boundaryTrace explanation s₀ es).Pairwise PlaybackState.Le := by
  induction es with
  | nil => intro s₀ _ _; simp [boundaryTrace]
  | cons e es ih =>
    intro s₀ h0 hs
    rw [List.pairwise_cons] at hs
    by_cases hw : e.name = "word"
    · have hat : AtOffset explanation e.charIndex (onboundary explanation e s₀) :=
        ⟨e, s₀, hw, rfl, rfl⟩
      have hp := boundaryTrace_pairwise explanation es e.charIndex _ hat hs.1 hs.2
      have hmem := boundaryTrace_atOffset explanation es e.charIndex _ hat hs.1 hs.2
      rw [List.pairwise_cons]
      refine ⟨?_, hp⟩
      intro u hu
      simp only [boundaryTrace, List.mem_cons] at hu
      rcases hu with rfl | hu
      · exact zero_le_atOffset explanation _ s₀ _ h0 hat
      · obtain ⟨c', -, hc'⟩ := hmem u hu
        exact zero_le_atOffset explanation c' s₀ u h0 hc'
    · have hih := ih s₀ h0 hs.2
      have hsame : onboundary explanation e s₀ = s₀ := onboundary_not_word _ _ _ hw
      simp only [boundaryTrace, hsame]
      rw [List.pairwise_cons]
      refine ⟨?_, hih⟩
      intro u hu
      rcases List.mem_cons.1 hu with rfl | hu'
      · exact ⟨le_refl _, le_refl _, le_refl _⟩
      · exact (List.pairwise_cons.1 hih).1 u hu'

/-- C5, as amended: for a script of length `L > 0`, the progress, point index and image
index the handler computes for a word event at `c₁` are at most those it computes for one
at `c₂ ≥ c₁` (`c₂ ≤ L`); hence in a run of boundary events of one utterance that arrives in
non-decreasing offset order, progress, current point and current image index never
decrease from the first word event on, and never decrease at all, the state at the start
of the utterance included, when that state has progress 0 and both indices 0 (the initial
state, or the state reset by `replay()`). -/
theorem boundary_monotone (explanation : Explanation)
    (_hL : 0 < scriptLength explanation) (e₁ e₂ : BoundaryEvent) (s₁ s₂ : PlaybackState)
    (h₁ : e₁.name = "word") (h₂ : e₂.name = "word") (h₁₂ : e₁.charIndex ≤ e₂.charIndex)
    (_h₂L : e₂.charIndex ≤ scriptLength explanation)
    (e : BoundaryEvent) (rest : List BoundaryEvent) (s : PlaybackState)
    (hw : e.name = "word")
    (hsorted : (e :: rest).Chain' (fun a b => a.charIndex ≤ b.charIndex))
    (_hbound : ∀ x ∈ e :: rest, x.charIndex ≤ scriptLength explanation)
    (s₀ : PlaybackState) (events : List BoundaryEvent)
    (hstart : s₀.progress = 0 ∧ s₀.currentPoint = 0 ∧ s₀.currentImageIndex = 0)
    (hordered : events.Chain' (fun a b => a.charIndex ≤ b.charIndex))
    (_hinside : ∀ x ∈ events, x.charIndex ≤ scriptLength explanation) :
    (onboundary explanation e₁ s₁).Le (onboundary explanation e₂ s₂) ∧
      (boundaryTrace explanation s (e :: rest)).Pairwise PlaybackState.Le ∧
      (s₀ :: boundaryTrace explanation s₀ events).Pairwise PlaybackState.Le := by
  haveI : IsTrans BoundaryEvent (fun a b => a.charIndex ≤ b.charIndex) :=
    ⟨fun _ _ _ hab hbc => le_trans hab hbc⟩
  refine ⟨onboundary_le_of_le explanation e₁ e₂ s₁ s₂ h₁ h₂ h₁₂, ?_, ?_⟩
  · have hp := List.chain'_iff_pairwise.1 hsorted
    rw [List.pairwise_cons] at hp
    exact boundaryTrace_pairwise explanation rest e.charIndex (onboundary explanation e s)
      ⟨e, s, hw, rfl, rfl⟩ hp.1 hp.2
  · exact boundaryTrace_from_zero explanation events s₀ hstart
      (List.chain'_iff_pairwise.1 hordered)

theorem boundary_monotone_witness :
    (onboundary demoExplanation ⟨"word", 4⟩ PlaybackState.initial).Le
        (onboundary demoExplanation ⟨"word", 9⟩ PlaybackState.initial) ∧
      (boundaryTrace demoExplanation (togglePlay (onend demoExplanation PlaybackState.initial))
        [⟨"word", 0⟩, ⟨"word", 5⟩, ⟨"sentence", 5⟩, ⟨"word", 5⟩, ⟨"word", 10⟩,
         ⟨"word", 15⟩]).Pairwise PlaybackState.Le ∧
      (replayTimeout (replay true ⟨false, false⟩
            (onend demoExplanation PlaybackState.initial)).state ::
          boundaryTrace demoExplanation
            (replayTimeout (replay true ⟨false, false⟩
              (onend demoExplanation PlaybackState.initial)).state)
            [⟨"sentence", 0⟩, ⟨"word", 0⟩, ⟨"word", 7⟩, ⟨"sentence", 12⟩,
             ⟨"word", 15⟩]).Pairwise PlaybackState.Le :=
  boundary_monotone demoExplanation (by decide) ⟨"word", 4⟩ ⟨"word", 9⟩
    PlaybackState.initial PlaybackState.initial rfl rfl (by decide) (by decide)
    ⟨"word", 0⟩ [⟨"word", 5⟩, ⟨"sentence", 5⟩, ⟨"word", 5⟩, ⟨"word", 10⟩, ⟨"word", 15⟩]
    (togglePlay (onend demoExplanation PlaybackState.initial)) rfl (by simp) (by decide)
    (replayTimeout (replay true ⟨false, false⟩
      (onend demoExplanation PlaybackState.initial)).state)
    [⟨"sentence", 0⟩, ⟨"word", 0⟩, ⟨"word", 7⟩, ⟨"sentence", 12⟩, ⟨"word", 15⟩]
    ⟨rfl, rfl, rfl⟩ (by simp) (by decide)

/-- C5, counterexample: Play from the completed state of the 15-character record starts a
new utterance (`cancel`, then `speak`) with progress 100 and both indices 2; the first word
event of that utterance, at offset 0, lowers progress to 0: the state before it is not
below the state after it. -/
theorem first_word_event_can_lower_progress :
    (playbackEffect (some demoExplanation) ⟨false, false⟩ none
        (togglePlay (onend demoExplanation PlaybackState.initial))).commands =
        [Command.cancel, Command.speak (newUtterance demoExplanation false)] ∧
      ¬ (togglePlay (onend demoExplanation PlaybackState.initial)).Le
          (onboundary demoExplanation ⟨"word", 0⟩
            (togglePlay (onend demoExplanation PlaybackState.initial))) := by
  refine ⟨rfl, ?_⟩
  intro h
  have hp := h.1
  rw [onboundary_progress _ _ _ rfl] at hp
  have h100 : (togglePlay (onend demoExplanation PlaybackState.initial)).progress = 100 := rfl
  rw [h100] at hp
  norm_num at hp

/-- C6 (refuted as stated): after a word event at offset 14 has moved the player of the
15-character record to point and image 2, a word event at offset 0 moves both back to 0. -/
theorem boundary_can_regress :
    ¬ ((onboundary demoExplanation ⟨"word", 14⟩ PlaybackState.initial).currentPoint ≤
          (onboundary demoExplanation ⟨"word", 0⟩
            (onboundary demoExplanation ⟨"word", 14⟩ PlaybackState.initial)).currentPoint ∧
        (onboundary demoExplanation ⟨"word", 14⟩ PlaybackState.initial).currentImageIndex ≤
          (onboundary demoExplanation ⟨"word", 0⟩
            (onboundary demoExplanation ⟨"word", 14⟩
              PlaybackState.initial)).currentImageIndex) := by
  rw [onboundary_currentPoint _ _ _ rfl, onboundary_currentPoint _ _ _ rfl,
    onboundary_currentImageIndex _ _ _ rfl, onboundary_currentImageIndex _ _ _ rfl]
  simp only [floor_scaled]
  decide

/-- C6 (amended): a word boundary event overwrites current point and current image index
with values that depend on the event's offset only, not on the state before; so after the
event they are at least their values before it whenever the state before was left by a word
event with a smaller or equal offset. -/
theorem boundary_overwrites_indices (explanation : Explanation)
    (event prev : BoundaryEvent) (s s' s₀ : PlaybackState)
    (_hL : 0 < scriptLength explanation) (hw : event.name = "word")
    (_hc : event.charIndex ≤ scriptLength explanation) (hp : prev.name = "word")
    (hle : prev.charIndex ≤ event.charIndex) :
    (onboundary explanation event s).currentPoint =
        (onboundary explanation event s').currentPoint ∧
      (onboundary explanation event s).currentImageIndex =
        (onboundary explanation event s').currentImageIndex ∧
      (onboundary explanation prev s₀).currentPoint ≤
        (onboundary explanation event (onboundary explanation prev s₀)).currentPoint ∧
      (onboundary explanation prev s₀).currentImageIndex ≤
        (onboundary explanation event (onboundary explanation prev s₀)).currentImageIndex := by
  have h := onboundary_le_of_le explanation prev event s₀ (onboundary explanation prev s₀)
    hp hw hle
  refine ⟨?_, ?_, h.2.1, h.2.2⟩
  · rw [onboundary_currentPoint _ _ _ hw, onboundary_currentPoint _ _ _ hw]
  · rw [onboundary_currentImageIndex _ _ _ hw, onboundary_currentImageIndex _ _ _ hw]

theorem boundary_overwrites_indices_witness :
    (onboundary demoExplanation ⟨"word", 14⟩ PlaybackState.initial).currentPoint =
        (onboundary demoExplanation ⟨"word", 14⟩
          (replayTimeout PlaybackState.initial)).currentPoint ∧
      (onboundary demoExplanation ⟨"word", 14⟩ PlaybackState.initial).currentImageIndex =
        (onboundary demoExplanation ⟨"word", 14⟩
          (replayTimeout PlaybackState.initial)).currentImageIndex ∧
      (onboundary demoExplanation ⟨"word", 7⟩ PlaybackState.initial).currentPoint ≤
        (onboundary demoExplanation ⟨"word", 14⟩
          (onboundary demoExplanation ⟨"word", 7⟩ PlaybackState.initial)).currentPoint ∧
      (onboundary demoExplanation ⟨"word", 7⟩ PlaybackState.initial).currentImageIndex ≤
        (onboundary demoExplanation ⟨"word", 14⟩
          (onboundary demoExplanation ⟨"word", 7⟩
            PlaybackState.initial)).currentImageIndex :=
  boundary_overwrites_indices demoExplanation ⟨"word", 14⟩ ⟨"word", 7⟩
    PlaybackState.initial (replayTimeout PlaybackState.initial) PlaybackState.initial
    (by decide) rfl (by decide) rfl (by decide)

/-- C7 (refuted as stated): a word boundary callback at offset 7 of the utterance that was
running before `replay()`, delivered after it, changes the freshly reset state. -/
theorem stale_boundary_overwrites_reset :
    ¬ (onboundary demoExplanation ⟨"word", 7⟩
          (replay true ⟨true, false⟩
            (onboundary demoExplanation ⟨"word", 7⟩ PlaybackState.initial)).state =
        (replay true ⟨true, false⟩
          (onboundary demoExplanation ⟨"word", 7⟩ PlaybackState.initial)).state) := by
  intro h
  have hp := congrArg PlaybackState.currentPoint h
  rw [onboundary_currentPoint _ _ _ rfl] at hp
  simp only [floor_scaled] at hp
  revert hp
  decide

/-- C7 (amended): the callbacks carry no tag of their utterance, so one that belongs to an
utterance started before `replay()` and is delivered after it is applied to the reset state
like any other: a word boundary event writes the progress and indices of its offset, a
completion writes progress 100, the last indices and `isPlaying = false`; the reset state is
left as it is exactly by a word boundary event at offset 0. -/
theorem stale_callbacks_applied (explanation : Explanation) (hasOnReplay : Bool)
    (speech : SpeechSynthesis) (s : PlaybackState) (event : BoundaryEvent)
    (hL : 0 < scriptLength explanation) (hw : event.name = "word")
    (_hc : event.charIndex ≤ scriptLength explanation) :
    onboundary explanation event (replay hasOnReplay speech s).state =
        onboundary explanation event s ∧
      (onboundary explanation event (replay hasOnReplay speech s).state).progress =
        100 * (event.charIndex : ℚ) / (scriptLength explanation : ℚ) ∧
      onend explanation (replay hasOnReplay speech s).state = onend explanation s ∧
      (onend explanation (replay hasOnReplay speech s).state).progress = 100 ∧
      (onboundary explanation event (replay hasOnReplay speech s).state =
          (replay hasOnReplay speech s).state ↔ event.charIndex = 0) := by
  have hLq : (0 : ℚ) < (scriptLength explanation : ℚ) := by exact_mod_cast hL
  refine ⟨?_, ?_, rfl, rfl, ?_⟩
  · rw [onboundary_word _ _ _ hw, onboundary_word _ _ _ hw]
    rfl
  · rw [onboundary_progress _ _ _ hw]
    ring
  · constructor
    · intro h
      have hp := congrArg PlaybackState.progress h
      rw [onboundary_progress _ _ _ hw] at hp
      have hp' : (event.charIndex : ℚ) / (scriptLength explanation : ℚ) * 100 = 0 := hp
      have h0 : (event.charIndex : ℚ) = 0 := by
        rcases mul_eq_zero.1 hp' with h1 | h1
        · rcases div_eq_zero_iff.1 h1 with h2 | h2
          · exact h2
          · exact absurd h2 (ne_of_gt hLq)
        · norm_num at h1
      exact_mod_cast h0
    · intro h0
      have hK := orDefault_one_pos (keyPointsLength explanation)
      have hM := orDefault_one_pos (imageUrlsLength explanation)
      rw [onboundary_word _ _ _ hw, h0]
      simp only [Nat.cast_zero, zero_div, zero_mul, Int.floor_zero]
      have e1 : min (0 : ℤ) (((orDefault (keyPointsLength explanation) 1 : ℕ) : ℤ) - 1) = 0 :=
        min_eq_left (by omega)
      have e2 : min (0 : ℤ) (((orDefault (imageUrlsLength explanation) 1 : ℕ) : ℤ) - 1) = 0 :=
        min_eq_left (by omega)
      rw [e1, e2]
      rfl

theorem stale_callbacks_applied_witness :
    onboundary demoExplanation ⟨"word", 7⟩
          (replay true ⟨true, false⟩ PlaybackState.initial).state =
        onboundary demoExplanation ⟨"word", 7⟩ PlaybackState.initial ∧
      (onboundary demoExplanation ⟨"word", 7⟩
          (replay true ⟨true, false⟩ PlaybackState.initial).state).progress =
        100 * ((7 : ℕ) : ℚ) / (scriptLength demoExplanation : ℚ) ∧
      onend demoExplanation (replay true ⟨true, false⟩ PlaybackState.initial).state =
        onend demoExplanation PlaybackState.initial ∧
      (onend demoExplanation
          (replay true ⟨true, false⟩ PlaybackState.initial).state).progress = 100 ∧
      (onboundary demoExplanation ⟨"word", 7⟩
            (replay true ⟨true, false⟩ PlaybackState.initial).state =
          (replay true ⟨true, false⟩ PlaybackState.initial).state ↔ 7 = 0) :=
  stale_callbacks_applied demoExplanation true ⟨true, false⟩ PlaybackState.initial
    ⟨"word", 7⟩ (by decide) rfl (by decide)

/-- The handler with exact arithmetic in place of doubles: for a record with `K ≥ 1` key
points, `M ≥ 1` images and a script of length `L > 0`, a word boundary event with
`charIndex ≤ L` gives the point index `min(floor(charIndex * K / L), K - 1)` and the image
index `min(floor(charIndex * M / L), M - 1)`. -/
theorem boundary_indices_exact (explanation : Explanation) (kp imgs : List String)
    (event : BoundaryEvent) (s : PlaybackState)
    (hk : explanation.key_points = some kp) (hK : 1 ≤ kp.length)
    (hi : explanation.image_urls = some imgs) (hM : 1 ≤ imgs.length)
    (_hL : 0 < scriptLength explanation) (hw : event.name = "word")
    (_hc : event.charIndex ≤ scriptLength explanation) :
    (onboundary explanation event s).currentPoint =
        min ⌊((event.charIndex : ℚ) * (kp.length : ℚ) / (scriptLength explanation : ℚ))⌋
          ((kp.length : ℤ) - 1) ∧
      (onboundary explanation event s).currentImageIndex =
        min ⌊((event.charIndex : ℚ) * (imgs.length : ℚ) / (scriptLength explanation : ℚ))⌋
          ((imgs.length : ℤ) - 1) := by
  have hkl : orDefault (keyPointsLength explanation) 1 = kp.length := by
    simp only [keyPointsLength, hk, Option.map_some']
    exact orDefault_of_pos _ _ hK
  have hil : orDefault (imageUrlsLength explanation) 1 = imgs.length := by
    simp only [imageUrlsLength, hi, Option.map_some']
    exact orDefault_of_pos _ _ hM
  rw [onboundary_currentPoint _ _ _ hw, onboundary_currentImageIndex _ _ _ hw, hkl, hil]
  exact ⟨rfl, rfl⟩

/-- The scenario of the specification with exact arithmetic: script of length 15, three
key points, word event at offset 7: the point index is 1. -/
theorem boundary_indices_exact_scenario :
    scriptLength demoExplanation = 15 ∧
      (onboundary demoExplanation ⟨"word", 7⟩ PlaybackState.initial).currentPoint = 1 ∧
      (onboundary demoExplanation ⟨"word", 7⟩ PlaybackState.initial).currentImageIndex = 1 := by
  have h := boundary_indices_exact demoExplanation ["A-point", "B-point", "C-point"]
    ["a.png", "b.png", "c.png"] ⟨"word", 7⟩ PlaybackState.initial rfl (by decide) rfl
    (by decide) (by decide) rfl (by decide)
  rw [h.1, h.2]
  simp only [floor_scaled]
  decide

/-! ## Completion and engine errors -/

/-- C9: for every playback state and every record with `K` key points and `M` images
(`0` for an absent list), the completion handler leaves `isPlaying = false`,
`progress = 100`, `currentPoint = K - 1`, `currentImageIndex = M - 1` and the mute flag as
it was. -/
theorem completion_state (explanation : Explanation) (s : PlaybackState) :
    onend explanation s =
      { isPlaying := false, isMuted := s.isMuted,
        currentPoint := (((explanation.key_points.getD []).length : ℕ) : ℤ) - 1,
        currentImageIndex := (((explanation.image_urls.getD []).length : ℕ) : ℤ) - 1,
        progress := 100 } := by
  have hk : orDefault (keyPointsLength explanation) 0 =
      (explanation.key_points.getD []).length := by
    rw [orDefault_zero, keyPointsLength]
    cases explanation.key_points <;> rfl
  have hi : orDefault (imageUrlsLength explanation) 0 =
      (explanation.image_urls.getD []).length := by
    rw [orDefault_zero, imageUrlsLength]
    cases explanation.image_urls <;> rfl
  unfold onend
  rw [hk, hi]

/-- C10: for every playback state, the engine-error handler leaves `isPlaying = false` and
progress, current point, current image index and mute flag as they were; the playback
effect that runs next keeps that state and the utterance reference and issues either no
engine command or a single `pause`, so neither `speak` nor `resume`. -/
theorem engine_error_stops_without_retry (explanation : Option Explanation)
    (speech : SpeechSynthesis) (utteranceRef : Option Utterance) (s : PlaybackState) :
    onerror s =
        { isPlaying := false, isMuted := s.isMuted, currentPoint := s.currentPoint,
          currentImageIndex := s.currentImageIndex, progress := s.progress } ∧
      (playbackEffect explanation speech utteranceRef (onerror s)).state = onerror s ∧
      (playbackEffect explanation speech utteranceRef (onerror s)).utteranceRef =
        utteranceRef ∧
      ((playbackEffect explanation speech utteranceRef (onerror s)).commands = [] ∨
        (playbackEffect explanation speech utteranceRef (onerror s)).commands =
          [Command.pause]) := by
  refine ⟨rfl, ?_, ?_, ?_⟩
  all_goals
    unfold playbackEffect onerror
    cases explanation with
    | none => simp
    | some ex =>
      dsimp only
      split_ifs <;> first | contradiction | simp

/-! ## Mute and play -/

/-- C11, counterexample: with `isPlaying = false` and an engine that is speaking and not
paused, setting mute to `true` makes the playback effect run again and call `pause()`. -/
theorem mute_change_can_pause :
    (playbackEffect (some demoExplanation) ⟨true, false⟩
        (some (newUtterance demoExplanation false))
        (setIsMuted true PlaybackState.initial)).commands = [Command.pause] := by
  rfl

/-- C11, as amended: setting mute to `b` changes `isMuted` to `b` and nothing else. With an
engine that is speaking and not paused, the playback effect that runs again on the change
issues no command while `isPlaying` is true, and one `pause()` while it is false (for a
record with a script); it keeps the state for a record with a script and the utterance
reference. The mute effect sets the volume of the current utterance to 0 if `b` and to 1
otherwise, and every utterance spoken later while `isMuted = b` has that volume. -/
theorem setMuted_frame_and_volume (explanation : Explanation) (speech : SpeechSynthesis)
    (utteranceRef : Option Utterance) (s : PlaybackState) (b : Bool)
    (later : PlaybackState) (speech' : SpeechSynthesis) (utteranceRef' : Option Utterance)
    (u : Utterance)
    (hsp : speech.speaking = true) (hnp : speech.paused = false)
    (hlater : later.isMuted = b)
    (hu : Command.speak u ∈
      (playbackEffect (some explanation) speech' utteranceRef' later).commands) :
    setIsMuted b s =
        { isPlaying := s.isPlaying, isMuted := b, currentPoint := s.currentPoint,
          currentImageIndex := s.currentImageIndex, progress := s.progress } ∧
      (playbackEffect (some explanation) speech utteranceRef (setIsMuted b s)).commands =
        (if s.isPlaying || !scriptTruthy explanation then [] else [Command.pause]) ∧
      (playbackEffect (some explanation) speech utteranceRef (setIsMuted b s)).state =
        (if scriptTruthy explanation then setIsMuted b s
         else { setIsMuted b s with isPlaying := false }) ∧
      (playbackEffect (some explanation) speech utteranceRef (setIsMuted b s)).utteranceRef =
        utteranceRef ∧
      muteEffect utteranceRef (setIsMuted b s) =
        utteranceRef.map (fun v => { v with volume := if b then 0 else 1 }) ∧
      u.volume = (if b then 0 else 1) := by
  refine ⟨rfl, ?_, ?_, ?_, rfl, ?_⟩
  · unfold playbackEffect setIsMuted
    dsimp only
    cases hs : scriptTruthy explanation <;> cases hp : s.isPlaying <;> simp [hsp, hnp]
  · unfold playbackEffect setIsMuted
    dsimp only
    cases hs : scriptTruthy explanation <;> cases hp : s.isPlaying <;> simp [hsp, hnp]
  · unfold playbackEffect setIsMuted
    dsimp only
    cases hs : scriptTruthy explanation <;> cases hp : s.isPlaying <;> simp [hsp, hnp]
  · unfold playbackEffect at hu
    dsimp only at hu
    subst hlater
    split_ifs at hu <;> simp at hu <;> subst hu <;> simp_all

theorem setMuted_frame_and_volume_witness :
    setIsMuted true (replayTimeout PlaybackState.initial) =
        { isPlaying := true, isMuted := true, currentPoint := 0, currentImageIndex := 0,
          progress := 0 } ∧
      (playbackEffect (some demoExplanation) ⟨true, false⟩
          (some (newUtterance demoExplanation false))
          (setIsMuted true (replayTimeout PlaybackState.initial))).commands = [] ∧
      (newUtterance demoExplanation true).volume = 0 := by
  have h := setMuted_frame_and_volume demoExplanation ⟨true, false⟩
    (some (newUtterance demoExplanation false)) (replayTimeout PlaybackState.initial) true
    (setIsMuted true (replayTimeout PlaybackState.initial)) ⟨false, false⟩ none
    (newUtterance demoExplanation true) rfl rfl rfl
    (by
      have hc : (playbackEffect (some demoExplanation) ⟨false, false⟩ none
          (setIsMuted true (replayTimeout PlaybackState.initial))).commands =
          [Command.cancel, Command.speak (newUtterance demoExplanation true)] := rfl
      rw [hc]
      simp)
  exact ⟨h.1, h.2.1, h.2.2.2.2.2⟩

/-- C12, counterexample: from the completed state of the 15-character record the play
button leaves progress at 100 and calls `onReplay` zero times, while `replay()` and its
delayed step leave progress at 0 and call `onReplay` once. -/
theorem play_from_completed_is_not_replay :
    ¬ (togglePlay (onend demoExplanation PlaybackState.initial) =
          replayTimeout
            (replay true ⟨false, false⟩ (onend demoExplanation PlaybackState.initial)).state ∧
        (togglePlayResult (onend demoExplanation PlaybackState.initial)).onReplayCalls =
          (replay true ⟨false, false⟩
            (onend demoExplanation PlaybackState.initial)).onReplayCalls) := by
  rintro ⟨-, h⟩
  exact absurd h (by decide)

/-- C12, as amended: from the completed state, for a record with a script and an idle
engine, the play button sets `isPlaying = true` and the playback effect then starts a new
utterance of the whole script (`cancel`, then `speak`), the same commands as after
`replay()` and its delayed step; but the play button leaves `progress = 100` and the
indices at their last positions, and it does not call `onReplay`, while `replay()` calls
it once. -/
theorem play_from_completed_restarts_narration (explanation : Explanation)
    (speech : SpeechSynthesis) (utteranceRef : Option Utterance) (s : PlaybackState)
    (hscript : scriptTruthy explanation = true)
    (hsp : speech.speaking = false) (hnp : speech.paused = false) :
    togglePlay (onend explanation s) =
        { isPlaying := true, isMuted := s.isMuted,
          currentPoint := (((explanation.key_points.getD []).length : ℕ) : ℤ) - 1,
          currentImageIndex := (((explanation.image_urls.getD []).length : ℕ) : ℤ) - 1,
          progress := 100 } ∧
      (togglePlayResult (onend explanation s)).onReplayCalls = 0 ∧
      (replay true speech (onend explanation s)).onReplayCalls = 1 ∧
      (playbackEffect (some explanation) speech utteranceRef
          (togglePlay (onend explanation s))).commands =
        [Command.cancel, Command.speak (newUtterance explanation s.isMuted)] ∧
      (playbackEffect (some explanation) speech utteranceRef
          (replayTimeout (replay true speech (onend explanation s)).state)).commands =
        [Command.cancel, Command.speak (newUtterance explanation s.isMuted)] := by
  have hk : orDefault (keyPointsLength explanation) 0 =
      (explanation.key_points.getD []).length := by
    rw [orDefault_zero, keyPointsLength]
    cases explanation.key_points <;> rfl
  have hi : orDefault (imageUrlsLength explanation) 0 =
      (explanation.image_urls.getD []).length := by
    rw [orDefault_zero, imageUrlsLength]
    cases explanation.image_urls <;> rfl
  refine ⟨?_, rfl, rfl, ?_, ?_⟩
  · unfold togglePlay onend
    rw [hk, hi]
    rfl
  · unfold playbackEffect togglePlay onend newUtterance
    simp [hscript, hsp, hnp]
  · unfold playbackEffect replayTimeout replay onend newUtterance
    simp [hscript, hsp, hnp]

theorem play_from_completed_restarts_narration_witness :
    (playbackEffect (some demoExplanation) ⟨false, false⟩ none
          (togglePlay (onend demoExplanation PlaybackState.initial))).commands =
        [Command.cancel, Command.speak (newUtterance demoExplanation false)] ∧
      (togglePlay (onend demoExplanation PlaybackState.initial)).progress = 100 :=
  ⟨(play_from_completed_restarts_narration demoExplanation ⟨false, false⟩ none
      PlaybackState.initial (by decide) rfl rfl).2.2.2.1,
    congrArg PlaybackState.progress
      (play_from_completed_restarts_narration demoExplanation ⟨false, false⟩ none
        PlaybackState.initial (by decide) rfl rfl).1⟩

/-! ## Auxiliary facts about the generation pipeline -/

theorem imageLoop_success (sv : Services) (topic : String) (url : ℕ → String) :
    ∀ (ks : List String) (i : ℕ) (acc : List String),
      (∀ m, m < ks.length →
        sv.generateImage (i + m) (imagePrompt (ks.getD m "") topic) = some (url (i + m))) →
      imageLoop sv topic ks i acc =
        (ks.map (imageCall topic),
          some (acc ++ (List.range ks.length).map (fun m => url (i + m)))) := by
  intro ks
  induction ks with
  | nil => intro i acc _; simp [imageLoop]
  | cons k ks ih =>
    intro i acc h
    have h0 : sv.generateImage i (imagePrompt k topic) = some (url i) := by
      simpa using h 0 (by simp)
    have hs : ∀ m, m < ks.length →
        sv.generateImage (i + 1 + m) (imagePrompt (ks.getD m "") topic) =
          some (url (i + 1 + m)) := by
      intro m hm
      have h1 := h (m + 1) (by simp only [List.length_cons]; omega)
      have e : i + (m + 1) = i + 1 + m := by omega
      rw [e] at h1
      simpa using h1
    simp only [imageLoop, h0, ih (i + 1) (acc ++ [url i]) hs]
    have e2 : (List.range (k :: ks).length).map (fun m => url (i + m)) =
        url i :: (List.range ks.length).map (fun m => url (i + 1 + m)) := by
      rw [List.length_cons, List.range_succ_eq_map, List.map_cons, List.map_map]
      congr 1
      apply List.map_congr_left
      intro m _
      show url (i + (m + 1)) = url (i + 1 + m)
      congr 1
      omega
    rw [e2]
    simp [imageCall]

theorem imageLoop_failure (sv : Services) (topic : String) :
    ∀ (ks : List String) (j i : ℕ) (acc : List String), j < ks.length →
      (∀ m, m < j →
        (sv.generateImage (i + m) (imagePrompt (ks.getD m "") topic)).isSome = true) →
      sv.generateImage (i + j) (imagePrompt (ks.getD j "") topic) = none →
      imageLoop sv topic ks i acc = ((ks.take (j + 1)).map (imageCall topic), none) := by
  intro ks
  induction ks with
  | nil => intro j i acc hj; simp at hj
  | cons k ks ih =>
    intro j i acc hj hsucc hfail
    cases j with
    | zero =>
      have h0 : sv.generateImage i (imagePrompt k topic) = none := by simpa using hfail
      simp [imageLoop, h0, imageCall]
    | succ j =>
      have h0 := hsucc 0 (by omega)
      obtain ⟨url, hurl⟩ := Option.isSome_iff_exists.1 h0
      have hurl' : sv.generateImage i (imagePrompt k topic) = some url := by simpa using hurl
      have hj' : j < ks.length := by simpa using hj
      have hs : ∀ m, m < j →
          (sv.generateImage (i + 1 + m) (imagePrompt (ks.getD m "") topic)).isSome = true := by
        intro m hm
        have h1 := hsucc (m + 1) (by omega)
        have e : i + (m + 1) = i + 1 + m := by omega
        rw [e] at h1
        simpa using h1
      have hf : sv.generateImage (i + 1 + j) (imagePrompt (ks.getD j "") topic) = none := by
        have e : i + (j + 1) = i + 1 + j := by omega
        rw [e] at hfail
        simpa using hfail
      simp only [imageLoop, hurl', ih j (i + 1) (acc ++ [url]) hj' hs hf]
      simp [imageCall]

/-- The calls and the outcome of the `try` block when the model answers and every image
call succeeds: one image call per key point in order, then one `create`. -/
theorem generateTry_success (sv : Services) (req : GenerateRequest) (response : LLMResponse)
    (url : ℕ → String)
    (hllm : sv.invokeLLM (llmPrompt req.topic req.complexity req.category) = some response)
    (himg : ∀ m, m < (response.key_points.getD []).length →
      sv.generateImage m (imagePrompt ((response.key_points.getD []).getD m "") req.topic) =
        some (url m)) :
    (generateTry sv req).1 =
      PipelineCall.invokeLLM (llmPrompt req.topic req.complexity req.category) ::
        (response.key_points.getD []).map (imageCall req.topic) ++
        [PipelineCall.store (StoreCall.create
          (createFields req response (response.key_points.getD [])
            ((List.range (response.key_points.getD []).length).map url)))] ∧
    (generateTry sv req).2 =
      match sv.create (createFields req response (response.key_points.getD [])
          ((List.range (response.key_points.getD []).length).map url)) with
      | none => Except.error "create rejected"
      | some explanation => Except.ok explanation := by
  have hloop := imageLoop_success sv req.topic url (response.key_points.getD []) 0 []
    (by intro m hm; simpa using himg m hm)
  simp only [Nat.zero_add, List.nil_append] at hloop
  unfold generateTry
  simp only [hllm, hloop]
  cases sv.create (createFields req response (response.key_points.getD [])
      ((List.range (response.key_points.getD []).length).map url)) <;> simp

/-- The handler `generateExplanation` settles normally whatever the services answer. -/
theorem generateExplanation_settles (sv : Services) (req : GenerateRequest)
    (page : GeneratePage) : ∃ page', (generateExplanation sv req page).2 = Except.ok page' := by
  unfold generateExplanation
  rcases generateTry sv req with ⟨calls, r⟩
  cases r with
  | ok e => exact ⟨_, rfl⟩
  | error e => exact ⟨_, rfl⟩

theorem filter_isImageCall_map (topic : String) (ks : List String) :
    (ks.map (imageCall topic)).filter isImageCall = ks.map (imageCall topic) := by
  induction ks with
  | nil => rfl
  | cons k ks ih => simp [imageCall, isImageCall] at ih ⊢

theorem filter_isStoreCall_map (topic : String) (ks : List String) :
    (ks.map (imageCall topic)).filter isStoreCall = [] := by
  induction ks with
  | nil => rfl
  | cons k ks ih => simp [imageCall, isStoreCall] at ih ⊢

/-- The calls and the settled page of `generateExplanation` when the model answers and
every image call succeeds. -/
theorem generateExplanation_success (sv : Services) (req : GenerateRequest)
    (page : GeneratePage) (response : LLMResponse) (url : ℕ → String)
    (hllm : sv.invokeLLM (llmPrompt req.topic req.complexity req.category) = some response)
    (himg : ∀ m, m < (response.key_points.getD []).length →
      sv.generateImage m (imagePrompt ((response.key_points.getD []).getD m "") req.topic) =
        some (url m)) :
    (generateExplanation sv req page).1 =
      PipelineCall.invokeLLM (llmPrompt req.topic req.complexity req.category) ::
        (response.key_points.getD []).map (imageCall req.topic) ++
        [PipelineCall.store (StoreCall.create
          (createFields req response (response.key_points.getD [])
            ((List.range (response.key_points.getD []).length).map url)))] := by
  have h := (generateTry_success sv req response url hllm himg).1
  unfold generateExplanation
  rcases hg : generateTry sv req with ⟨calls, r⟩
  rw [hg] at h
  cases r <;> exact h

/-! ## The generation pipeline -/

/-- C13: when the model answers with `K` key points and image call `j` (`1 ≤ j ≤ K`) is
the first to fail, `generateExplanation` makes the LLM call and the image calls for the
first `j` key points only, makes no store call, keeps `currentExplanation` and settles with
the error notice set. -/
theorem image_failure_aborts_generation (sv : Services) (req : GenerateRequest)
    (page : GeneratePage) (response : LLMResponse) (kps : List String) (j : ℕ)
    (hllm : sv.invokeLLM (llmPrompt req.topic req.complexity req.category) = some response)
    (hk : response.key_points = some kps) (hj1 : 1 ≤ j) (hjK : j ≤ kps.length)
    (hsucc : ∀ m, m + 1 < j →
      (sv.generateImage m (imagePrompt (kps.getD m "") req.topic)).isSome = true)
    (hfail : sv.generateImage (j - 1) (imagePrompt (kps.getD (j - 1) "") req.topic) = none) :
    (generateExplanation sv req page).1 =
        PipelineCall.invokeLLM (llmPrompt req.topic req.complexity req.category) ::
          (kps.take j).map (imageCall req.topic) ∧
      ((generateExplanation sv req page).1.filter isImageCall).length = j ∧
      (generateExplanation sv req page).1.filter isStoreCall = [] ∧
      (generateExplanation sv req page).2 =
        Except.ok { isGenerating := false, generationStatus := "",
                    currentExplanation := page.currentExplanation,
                    error := some "Failed to generate explanation. Please try again." } := by
  obtain ⟨j', rfl⟩ : ∃ j', j = j' + 1 := ⟨j - 1, by omega⟩
  have hloop := imageLoop_failure sv req.topic kps j' 0 [] (by omega)
    (by intro m hm; simpa using hsucc m (by omega))
    (by simpa using hfail)
  have hcalls : (generateExplanation sv req page).1 =
      PipelineCall.invokeLLM (llmPrompt req.topic req.complexity req.category) ::
        (kps.take (j' + 1)).map (imageCall req.topic) := by
    unfold generateExplanation generateTry
    simp only [hllm, hk, Option.getD_some, hloop]
  refine ⟨hcalls, ?_, ?_, ?_⟩
  · rw [hcalls, List.filter_cons_of_neg (by simp [isImageCall]), filter_isImageCall_map,
      List.length_map, List.length_take]
    omega
  · rw [hcalls, List.filter_cons_of_neg (by simp [isStoreCall]), filter_isStoreCall_map]
  · unfold generateExplanation generateTry
    simp only [hllm, hk, Option.getD_some, hloop]

theorem image_failure_aborts_generation_witness :
    (generateExplanation demoServicesImageFails demoRequest demoPage).1 =
        PipelineCall.invokeLLM (llmPrompt "letters" "beginner" "education") ::
          [imageCall "letters" "A-point", imageCall "letters" "B-point"] ∧
      ((generateExplanation demoServicesImageFails demoRequest demoPage).1.filter
        isImageCall).length = 2 ∧
      (generateExplanation demoServicesImageFails demoRequest demoPage).1.filter
        isStoreCall = [] ∧
      (generateExplanation demoServicesImageFails demoRequest demoPage).2 =
        Except.ok { isGenerating := false, generationStatus := "",
                    currentExplanation := some demoExplanation,
                    error := some "Failed to generate explanation. Please try again." } :=
  image_failure_aborts_generation demoServicesImageFails demoRequest demoPage
    { script := none, key_points := some ["A-point", "B-point"], duration_estimate := some 60 }
    ["A-point", "B-point"] 2 rfl rfl (by decide) (by decide)
    (by
      intro m hm
      have h0 : m = 0 := by omega
      subst h0
      rfl)
    rfl

/-- C14: when the model answers with key points `k_1..k_K` and every image call succeeds,
call `i` returning `url i`, `generateExplanation` makes exactly `K` image calls, one per
key point in index order with the prompt built from that key point, and then hands
`create` the key points in the same order and `image_urls` of length `K` whose entry `i`
is `url i`. -/
theorem one_image_call_per_key_point (sv : Services) (req : GenerateRequest)
    (page : GeneratePage) (response : LLMResponse) (kps : List String) (url : ℕ → String)
    (hllm : sv.invokeLLM (llmPrompt req.topic req.complexity req.category) = some response)
    (hk : response.key_points = some kps)
    (himg : ∀ m, m < kps.length →
      sv.generateImage m (imagePrompt (kps.getD m "") req.topic) = some (url m)) :
    (generateExplanation sv req page).1.filter isImageCall =
        kps.map (fun k => PipelineCall.generateImage (imagePrompt k req.topic)) ∧
      ((generateExplanation sv req page).1.filter isImageCall).length = kps.length ∧
      ∃ fields : CreateFields,
        (generateExplanation sv req page).1.filter isStoreCall =
            [PipelineCall.store (StoreCall.create fields)] ∧
          fields.key_points = kps ∧ fields.image_urls.length = kps.length ∧
          ∀ i, i < kps.length → fields.image_urls.getD i "" = url i := by
  have hk' : response.key_points.getD [] = kps := by rw [hk]; rfl
  have hcalls := generateExplanation_success sv req page response url hllm
    (by rw [hk']; exact himg)
  rw [hk'] at hcalls
  have himgs : (generateExplanation sv req page).1.filter isImageCall =
      kps.map (imageCall req.topic) := by
    rw [hcalls, List.cons_append, List.filter_cons_of_neg (by simp [isImageCall]),
      List.filter_append, filter_isImageCall_map]
    simp [isImageCall]
  refine ⟨himgs, ?_, createFields req response kps ((List.range kps.length).map url), ?_, rfl,
    ?_, ?_⟩
  · rw [himgs, List.length_map]
  · rw [hcalls, List.cons_append, List.filter_cons_of_neg (by simp [isStoreCall]),
      List.filter_append, filter_isStoreCall_map]
    simp [isStoreCall]
  · simp [createFields]
  · intro i hi
    simp [createFields, List.getD_eq_getElem?_getD, hi]

theorem one_image_call_per_key_point_witness :
    (generateExplanation demoServices demoRequest GeneratePage.initial).1.filter isImageCall =
        [PipelineCall.generateImage (imagePrompt "A-point" "letters"),
         PipelineCall.generateImage (imagePrompt "B-point" "letters")] ∧
      ((generateExplanation demoServices demoRequest GeneratePage.initial).1.filter
        isImageCall).length = 2 ∧
      ∃ fields : CreateFields,
        (generateExplanation demoServices demoRequest GeneratePage.initial).1.filter
            isStoreCall = [PipelineCall.store (StoreCall.create fields)] ∧
          fields.key_points = ["A-point", "B-point"] ∧ fields.image_urls.length = 2 ∧
          ∀ i, i < 2 → fields.image_urls.getD i "" = (if i = 0 then "a.png" else "b.png") :=
  one_image_call_per_key_point demoServices demoRequest GeneratePage.initial
    { script := none, key_points := some ["A-point", "B-point"], duration_estimate := some 60 }
    ["A-point", "B-point"] (fun i => if i = 0 then "a.png" else "b.png") rfl rfl
    (by intro m _; rfl)

/-- C15, counterexample: the model answers without a script and all calls succeed; the
handler still makes both image calls and the `create` call, with the script missing, opens
the created record and sets no error notice. -/
theorem missing_script_is_persisted :
    (generateExplanation demoServices demoRequest GeneratePage.initial).1 =
        [PipelineCall.invokeLLM (llmPrompt "letters" "beginner" "education"),
         PipelineCall.generateImage (imagePrompt "A-point" "letters"),
         PipelineCall.generateImage (imagePrompt "B-point" "letters"),
         PipelineCall.store (StoreCall.create
           { topic := "letters", category := "education", complexity_level := "beginner",
             script := none, key_points := ["A-point", "B-point"],
             duration_estimate := some 60, image_urls := ["a.png", "b.png"],
             view_count := 1 })] ∧
      (generateExplanation demoServices demoRequest GeneratePage.initial).2 =
        Except.ok
          { isGenerating := false, generationStatus := "",
            currentExplanation := some
              { id := "rec-9", topic := "letters", category := "education",
                complexity_level := "beginner", script := none,
                key_points := some ["A-point", "B-point"], duration_estimate := 60,
                image_urls := some ["a.png", "b.png"], view_count := some 1 },
            error := none } :=
  ⟨rfl, rfl⟩

/-- C15, as amended: `generateExplanation` does not check the answer of the model. For an
answer whose script is missing or empty, with all calls succeeding, it makes the image
call for every key point and then the `create` call with the script as received, opens the
created record and sets no error notice. -/
theorem missing_script_not_validated (sv : Services) (req : GenerateRequest)
    (page : GeneratePage) (response : LLMResponse) (url : ℕ → String)
    (created : Explanation)
    (hllm : sv.invokeLLM (llmPrompt req.topic req.complexity req.category) = some response)
    (_hscript : response.script = none ∨ response.script = some "")
    (himg : ∀ m, m < (response.key_points.getD []).length →
      sv.generateImage m (imagePrompt ((response.key_points.getD []).getD m "") req.topic) =
        some (url m))
    (hcreate : sv.create
      { topic := req.topic, category := req.category, complexity_level := req.complexity,
        script := response.script, key_points := response.key_points.getD [],
        duration_estimate := response.duration_estimate,
        image_urls := (List.range (response.key_points.getD []).length).map url,
        view_count := 1 } = some created) :
    (generateExplanation sv req page).1 =
        PipelineCall.invokeLLM (llmPrompt req.topic req.complexity req.category) ::
          (response.key_points.getD []).map
            (fun k => PipelineCall.generateImage (imagePrompt k req.topic)) ++
          [PipelineCall.store (StoreCall.create
            { topic := req.topic, category := req.category,
              complexity_level := req.complexity, script := response.script,
              key_points := response.key_points.getD [],
              duration_estimate := response.duration_estimate,
              image_urls := (List.range (response.key_points.getD []).length).map url,
              view_count := 1 })] ∧
      (generateExplanation sv req page).2 =
        Except.ok { isGenerating := false, generationStatus := "",
                    currentExplanation := some created, error := none } := by
  have ht := generateTry_success sv req response url hllm himg
  have hc : sv.create (createFields req response (response.key_points.getD [])
      ((List.range (response.key_points.getD []).length).map url)) = some created := hcreate
  rw [hc] at ht
  refine ⟨generateExplanation_success sv req page response url hllm himg, ?_⟩
  unfold generateExplanation
  rcases hg : generateTry sv req with ⟨calls, r⟩
  rw [hg] at ht
  obtain ⟨-, h2⟩ := ht
  dsimp only at h2
  subst h2
  rfl

theorem missing_script_not_validated_witness :
    (generateExplanation demoServices demoRequest GeneratePage.initial).2 =
      Except.ok
        { isGenerating := false, generationStatus := "",
          currentExplanation := some
            { id := "rec-9", topic := "letters", category := "education",
              complexity_level := "beginner", script := none,
              key_points := some ["A-point", "B-point"], duration_estimate := 60,
              image_urls := some ["a.png", "b.png"], view_count := some 1 },
          error := none } :=
  (missing_script_not_validated demoServices demoRequest GeneratePage.initial
    { script := none, key_points := some ["A-point", "B-point"], duration_estimate := some 60 }
    (fun i => if i = 0 then "a.png" else "b.png")
    { id := "rec-9", topic := "letters", category := "education",
      complexity_level := "beginner", script := none,
      key_points := some ["A-point", "B-point"], duration_estimate := 60,
      image_urls := some ["a.png", "b.png"], view_count := some 1 }
    rfl (Or.inl rfl) (by intro m _; rfl) rfl).2

/-- C16: for a request whose LLM call and image calls all succeed, `generateExplanation`
calls the store exactly once, a `create` with `view_count = 1`, the topic, category and
complexity of the request, and the script and duration estimate of the answer. -/
theorem create_called_once_with_view_count_one (sv : Services) (req : GenerateRequest)
    (page : GeneratePage) (response : LLMResponse) (url : ℕ → String)
    (hllm : sv.invokeLLM (llmPrompt req.topic req.complexity req.category) = some response)
    (himg : ∀ m, m < (response.key_points.getD []).length →
      sv.generateImage m (imagePrompt ((response.key_points.getD []).getD m "") req.topic) =
        some (url m)) :
    (generateExplanation sv req page).1.filter isStoreCall =
      [PipelineCall.store (StoreCall.create
        { topic := req.topic, category := req.category, complexity_level := req.complexity,
          script := response.script, key_points := response.key_points.getD [],
          duration_estimate := response.duration_estimate,
          image_urls := (List.range (response.key_points.getD []).length).map url,
          view_count := 1 })] := by
  rw [generateExplanation_success sv req page response url hllm himg, List.cons_append,
    List.filter_cons_of_neg (by simp [isStoreCall]), List.filter_append,
    filter_isStoreCall_map]
  simp [isStoreCall, createFields]

theorem create_called_once_with_view_count_one_witness :
    (generateExplanation demoServices demoRequest GeneratePage.initial).1.filter isStoreCall =
      [PipelineCall.store (StoreCall.create
        { topic := "letters", category := "education", complexity_level := "beginner",
          script := none, key_points := ["A-point", "B-point"],
          duration_estimate := some 60, image_urls := ["a.png", "b.png"],
          view_count := 1 })] :=
  create_called_once_with_view_count_one demoServices demoRequest GeneratePage.initial
    { script := none, key_points := some ["A-point", "B-point"], duration_estimate := some 60 }
    (fun i => if i = 0 then "a.png" else "b.png") rfl (by intro m _; rfl)

/-! ## The library page -/

/-- C17: clicking a library record with view count `v` (`0` when missing) calls `update`
once, on the record's id with `view_count = v + 1` (followed by the reload of the list),
and the record opened for playback is the clicked record with `view_count = v + 1` and
every other field as it was. The `update` call is the same when the store rejects it. -/
theorem click_increments_view_count (listResult : Option (List Explanation))
    (explanation : Explanation) (page : LibraryPage) :
    (handleExplanationClick true listResult explanation page).1 =
        [StoreCall.update explanation.id (explanation.view_count.getD 0 + 1),
         StoreCall.list "-created_date"] ∧
      (handleExplanationClick true listResult explanation page).2 =
        Except.ok
          { page with
            selectedExplanation := some
              { id := explanation.id, topic := explanation.topic,
                category := explanation.category,
                complexity_level := explanation.complexity_level,
                script := explanation.script, key_points := explanation.key_points,
                duration_estimate := explanation.duration_estimate,
                image_urls := explanation.image_urls,
                view_count := some (explanation.view_count.getD 0 + 1) }
            explanations := listResult.getD page.explanations
            isLoading := false } ∧
      (handleExplanationClick false listResult explanation page).1 =
        [StoreCall.update explanation.id (explanation.view_count.getD 0 + 1)] := by
  unfold handleExplanationClick loadExplanations
  rw [orDefault_zero]
  cases listResult <;> exact ⟨rfl, rfl, rfl⟩

/-- C18, counterexample: with a list already loaded, a reload whose `list` call fails
leaves the loaded list on the page, not the empty list. -/
theorem failed_reload_keeps_list :
    (loadExplanations none demoLibraryPage).2 = Except.ok demoLibraryPage ∧
      demoLibraryPage.explanations ≠ [] :=
  ⟨rfl, by simp [demoLibraryPage, demoLibrary]⟩

/-- C18, as amended: whenever the `list` call fails, `loadExplanations` settles normally
and leaves the page with `explanations` as it was and `isLoading = false`; on the initial
load that is the empty list. -/
theorem failed_load_keeps_explanations (page : LibraryPage) :
    loadExplanations none page =
        ([StoreCall.list "-created_date"],
          Except.ok
            { explanations := page.explanations,
              filteredExplanations := page.filteredExplanations,
              selectedExplanation := page.selectedExplanation,
              searchQuery := page.searchQuery, categoryFilter := page.categoryFilter,
              complexityFilter := page.complexityFilter, isLoading := false }) ∧
      (loadExplanations none LibraryPage.initial).2 =
        Except.ok
          { explanations := [], filteredExplanations := [], selectedExplanation := none,
            searchQuery := "", categoryFilter := "all", complexityFilter := "all",
            isLoading := false } :=
  ⟨rfl, rfl⟩

/-- C19 (the code at the failing input): when `update` rejects, `handleReplay` on the
generate page and `handleExplanationClick` on the library page both settle as rejected
promises; nothing in the handlers catches the failure. -/
theorem store_failure_escapes_handlers :
    handleReplayAsync false demoPage =
        ([StoreCall.update "rec-1" 2], Except.error "update rejected") ∧
      handleExplanationClick false none demoExplanation demoLibraryPage =
        ([StoreCall.update "rec-1" 2], Except.error "update rejected") :=
  ⟨rfl, rfl⟩

/-! ## The library filter -/

theorem string_toList_eq_nil (t : String) : t.toList = [] ↔ t = "" := by
  constructor
  · intro h
    cases t with
    | mk data =>
      have hd : data = [] := h
      subst hd
      rfl
  · intro h
    subst h
    rfl

/-- Only the empty string occurs in the empty string. -/
theorem includes_empty_left (t : String) : includes "" t = true ↔ t = "" := by
  unfold includes
  rw [decide_eq_true_iff]
  show t.toList <:+: [] ↔ t = ""
  rw [List.infix_nil, string_toList_eq_nil]

/-- For a non-empty query the search predicate of the code is the one of the
specification: a record whose script is the empty string is found by its topic only. -/
theorem matchesSearch_eq (toLowerCase : String → String) (h₁ : toLowerCase "" = "")
    (h₂ : ∀ s, toLowerCase s = "" → s = "") (q : String) (hq : q ≠ "") (r : Explanation) :
    matchesSearch toLowerCase q r =
      (includes (toLowerCase r.topic) (toLowerCase q) ||
        (match r.script with
         | some script => includes (toLowerCase script) (toLowerCase q)
         | none => false)) := by
  unfold matchesSearch
  cases hs : r.script with
  | none => rfl
  | some script =>
    by_cases he : script = ""
    · subst he
      have hne : includes (toLowerCase "") (toLowerCase q) = false := by
        rw [h₁]
        cases hi : includes "" (toLowerCase q) with
        | false => rfl
        | true => exact absurd (h₂ q ((includes_empty_left _).1 hi)) hq
      simp [hne]
    · have hb : (script == "") = false := by simpa using he
      simp [hb]

theorem ite_filter {α : Type} (p : Prop) [Decidable p] (l : List α) (f : α → Bool) :
    (if p then l.filter f else l) = l.filter (fun r => !decide p || f r) := by
  by_cases h : p <;> simp [h]

theorem filterExplanations_eq_filter (toLowerCase : String → String)
    (h₁ : toLowerCase "" = "") (h₂ : ∀ s, toLowerCase s = "" → s = "")
    (explanations : List Explanation) (q c x : String) :
    filterExplanations toLowerCase explanations q c x =
      explanations.filter (keptBySpec toLowerCase q c x) := by
  unfold filterExplanations
  dsimp only
  rw [ite_filter, ite_filter, ite_filter, List.filter_filter, List.filter_filter]
  apply List.filter_congr
  intro r _
  have hqb : (q == "") = decide (q = "") := by
    by_cases h : q = "" <;> simp [h]
  have hcb : (c == "all") = decide (c = "all") := by
    by_cases h : c = "all" <;> simp [h]
  have hxb : (x == "all") = decide (x = "all") := by
    by_cases h : x = "all" <;> simp [h]
  have hm : (!decide (q ≠ "") || matchesSearch toLowerCase q r) =
      (decide (q = "") || includes (toLowerCase r.topic) (toLowerCase q) ||
        (match r.script with
         | some script => includes (toLowerCase script) (toLowerCase q)
         | none => false)) := by
    by_cases h : q = ""
    · simp [h]
    · rw [matchesSearch_eq toLowerCase h₁ h₂ q h r]
      simp [h]
  unfold keptBySpec
  rw [hqb, hcb, hxb, ← hm]
  by_cases hc : c = "all" <;> by_cases hx : x = "all" <;>
    simp [hc, hx, Bool.and_comm, Bool.and_left_comm, Bool.and_assoc]

theorem asciiLower_empty : asciiLower "" = "" := rfl

theorem asciiLower_eq_empty (s : String) (h : asciiLower s = "") : s = "" := by
  have hd : (asciiLower s).toList = [] := (string_toList_eq_nil _).2 h
  have hm : s.toList.map Char.toLower = [] := hd
  exact (string_toList_eq_nil s).1 (List.map_eq_nil_iff.1 hm)

/-- C20: with the lower-casing of the runtime (it maps the empty string to itself and no
other string to it), `filterExplanations` returns exactly the records, in their original
order, that the specification keeps: the query is empty or occurs in the lower-cased topic
or in the lower-cased script of a record that has one, the category filter is `"all"` or
equals the record's category, and likewise for the complexity filter. With an empty query
and both filters `"all"` the result is the input list, and filtering the result again with
the same query and filters returns it unchanged. -/
theorem filterExplanations_spec (toLowerCase : String → String)
    (h₁ : toLowerCase "" = "") (h₂ : ∀ s, toLowerCase s = "" → s = "")
    (explanations : List Explanation) (q c x : String) :
    filterExplanations toLowerCase explanations q c x =
        explanations.filter (keptBySpec toLowerCase q c x) ∧
      filterExplanations toLowerCase explanations "" "all" "all" = explanations ∧
      filterExplanations toLowerCase (filterExplanations toLowerCase explanations q c x)
          q c x =
        filterExplanations toLowerCase explanations q c x := by
  refine ⟨filterExplanations_eq_filter toLowerCase h₁ h₂ explanations q c x, ?_, ?_⟩
  · simp [filterExplanations]
  · rw [filterExplanations_eq_filter toLowerCase h₁ h₂,
      filterExplanations_eq_filter toLowerCase h₁ h₂, List.filter_filter]
    apply List.filter_congr
    intro r _
    exact Bool.and_self _

theorem filterExplanations_spec_witness :
    filterExplanations asciiLower demoLibrary "BLACK" "science" "all" =
        demoLibrary.filter (keptBySpec asciiLower "BLACK" "science" "all") ∧
      filterExplanations asciiLower demoLibrary "" "all" "all" = demoLibrary ∧
      filterExplanations asciiLower
          (filterExplanations asciiLower demoLibrary "BLACK" "science" "all")
          "BLACK" "science" "all" =
        filterExplanations asciiLower demoLibrary "BLACK" "science" "all" ∧
      (filterExplanations asciiLower demoLibrary "BLACK" "science" "all").map
          (fun r => r.id) = ["rec-2"] :=
  ⟨(filterExplanations_spec asciiLower asciiLower_empty asciiLower_eq_empty demoLibrary
      "BLACK" "science" "all").1,
    (filterExplanations_spec asciiLower asciiLower_empty asciiLower_eq_empty demoLibrary
      "BLACK" "science" "all").2.1,
    (filterExplanations_spec asciiLower asciiLower_empty asciiLower_eq_empty demoLibrary
      "BLACK" "science" "all").2.2,
    by decide⟩

/-! ## The topic form -/

/-- A trimmed list of characters does not end in white space. -/
theorem trimChars_getLast (l : List Char) (c : Char)
    (h : (trimChars l).getLast? = some c) : isJsWhiteSpace c = false := by
  unfold trimChars at h
  rw [List.getLast?_reverse] at h
  have hn := List.head?_dropWhile_not isJsWhiteSpace (l.dropWhile isJsWhiteSpace).reverse
  rw [h] at hn
  exact hn

/-- A trimmed list of characters does not start with white space. -/
theorem trimChars_head (l : List Char) (c : Char)
    (h : (trimChars l).head? = some c) : isJsWhiteSpace c = false := by
  unfold trimChars at h
  rw [List.head?_reverse] at h
  have hd : (l.dropWhile isJsWhiteSpace).reverse.dropWhile isJsWhiteSpace ≠ [] := by
    intro e
    rw [e] at h
    simp at h
  have hsuf := List.dropWhile_suffix (l := (l.dropWhile isJsWhiteSpace).reverse)
    isJsWhiteSpace
  have hlast := hsuf.getLast hd
  rw [List.getLast?_eq_getLast _ hd, hlast] at h
  have hc := Option.some.inj h
  rw [List.getLast_reverse] at hc
  rw [← hc]
  exact List.head_dropWhile_not isJsWhiteSpace l _

/-- C21: for every topic text in the form, `handleSubmit` calls `onGenerate` if and only
if the trimmed text is not empty, and then exactly once, with the trimmed text and the
selected complexity and category; so every topic handed to the generation pipeline is
non-empty and neither starts nor ends with white space. The submit button is disabled
exactly when the handler would not call `onGenerate` or a generation is running. -/
theorem handleSubmit_spec (s : TopicInputState) (isGenerating : Bool) :
    (handleSubmit s ≠ [] ↔ jsTrim s.topic ≠ "") ∧
      (handleSubmit s = [] ∨
        handleSubmit s =
          [{ topic := jsTrim s.topic, complexity := s.complexity,
             category := s.category }]) ∧
      (∀ r, r ∈ handleSubmit s →
        r.topic ≠ "" ∧
          (∀ c, r.topic.toList.head? = some c → isJsWhiteSpace c = false) ∧
          (∀ c, r.topic.toList.getLast? = some c → isJsWhiteSpace c = false)) ∧
      submitDisabled s isGenerating = ((handleSubmit s).isEmpty || isGenerating) := by
  unfold handleSubmit submitDisabled
  by_cases h : jsTrim s.topic = ""
  · simp [h]
  · refine ⟨by simp [h], Or.inr (by simp [h]), ?_, by simp [h]⟩
    intro r hr
    simp only [ne_eq, h, not_false_eq_true, if_true, List.mem_singleton] at hr
    subst hr
    exact ⟨h, fun c hc => trimChars_head s.topic.toList c hc,
      fun c hc => trimChars_getLast s.topic.toList c hc⟩

/-- Two submissions: a padded topic is handed on trimmed, a blank one is not handed on. -/
theorem handleSubmit_examples :
    handleSubmit { topic := "  Black holes \n", complexity := "advanced",
                   category := "science" } =
        [{ topic := "Black holes", complexity := "advanced", category := "science" }] ∧
      handleSubmit { topic := " \t ", complexity := "beginner", category := "science" } = [] := by
  decide

/-! ## Auxiliary facts about double rounding -/

theorem onboundaryRounded_id (explanation : Explanation) (event : BoundaryEvent)
    (s : PlaybackState) :
    onboundaryRounded id explanation event s = onboundary explanation event s := rfl

theorem onboundaryDouble_currentPoint (explanation : Explanation) (event : BoundaryEvent)
    (s : PlaybackState) (hw : event.name = "word") :
    (onboundaryDouble explanation event s).currentPoint =
      min ⌊scaledRounded roundDouble (event.charIndex : ℚ) (scriptLength explanation : ℚ)
            ((orDefault (keyPointsLength explanation) 1 : ℕ) : ℚ)⌋
          (((orDefault (keyPointsLength explanation) 1 : ℕ) : ℤ) - 1) := by
  unfold onboundaryDouble onboundaryRounded scaledRounded
  simp only [hw, if_true, Int.cast_natCast]

theorem onboundaryDouble_currentImageIndex (explanation : Explanation)
    (event : BoundaryEvent) (s : PlaybackState) (hw : event.name = "word") :
    (onboundaryDouble explanation event s).currentImageIndex =
      min ⌊scaledRounded roundDouble (event.charIndex : ℚ) (scriptLength explanation : ℚ)
            ((orDefault (imageUrlsLength explanation) 1 : ℕ) : ℚ)⌋
          (((orDefault (imageUrlsLength explanation) 1 : ℕ) : ℤ) - 1) := by
  unfold onboundaryDouble onboundaryRounded scaledRounded
  simp only [hw, if_true, Int.cast_natCast]

/-- Rounding to an integer that is less than a half away. -/
theorem roundHalfEven_eq (q : ℚ) (m : ℤ) (h : |q - m| < 1 / 2) : roundHalfEven q = m := by
  rw [abs_lt] at h
  obtain ⟨h1, h2⟩ := h
  unfold roundHalfEven
  by_cases hm : (m : ℚ) ≤ q
  · have hf : ⌊q⌋ = m := by
      rw [Int.floor_eq_iff]
      constructor <;> linarith
    rw [hf]
    have h5 : q - (m : ℚ) < 1 / 2 := h2
    simp only [h5, if_true]
  · have hf : ⌊q⌋ = m - 1 := by
      rw [Int.floor_eq_iff]
      push_cast
      constructor <;> linarith
    rw [hf]
    have h3 : ¬ (q - ((m - 1 : ℤ) : ℚ) < 1 / 2) := by
      push_cast
      linarith
    have h4 : 1 / 2 < q - ((m - 1 : ℤ) : ℚ) := by
      push_cast
      linarith
    simp only [h3, h4, if_false, if_true]
    ring

/-- Rounding to an integer moves a number by at most a half. -/
theorem roundHalfEven_error (q : ℚ) : |(roundHalfEven q : ℚ) - q| ≤ 1 / 2 := by
  have h1 := Int.floor_le q
  have h2 := Int.lt_floor_add_one q
  unfold roundHalfEven
  rw [abs_le]
  split_ifs with a b c
  · constructor <;> linarith
  · push_cast
    constructor <;> linarith
  · constructor <;> linarith
  · push_cast
    constructor <;> linarith

/-- The binary exponent of a positive rational between `2 ^ e` and `2 ^ (e + 1)`. -/
theorem log_two_eq (x : ℚ) (e : ℤ) (hx : 0 < x) (h1 : (2 : ℚ) ^ e ≤ x)
    (h2 : x < (2 : ℚ) ^ (e + 1)) : Int.log 2 |x| = e := by
  rw [abs_of_pos hx]
  have h1' : ((2 : ℕ) : ℚ) ^ e ≤ x := by rw [Nat.cast_ofNat]; exact h1
  have h2' : x < ((2 : ℕ) : ℚ) ^ (e + 1) := by rw [Nat.cast_ofNat]; exact h2
  have ha := (Int.zpow_le_iff_le_log (by norm_num : 1 < 2) hx).1 h1'
  have hb := (Int.lt_zpow_iff_log_lt (by norm_num : 1 < 2) hx).1 h2'
  omega

/-- The double nearest to a positive rational with binary exponent `e`, when `m` is the
integer less than a half away from the number scaled to 53 bits. -/
theorem roundDouble_eq (x : ℚ) (e m : ℤ) (hx : 0 < x) (h1 : (2 : ℚ) ^ e ≤ x)
    (h2 : x < (2 : ℚ) ^ (e + 1)) (h3 : |x * (2 : ℚ) ^ (52 - e) - m| < 1 / 2) :
    roundDouble x = (m : ℚ) / (2 : ℚ) ^ (52 - e) := by
  unfold roundDouble
  rw [if_neg (ne_of_gt hx), log_two_eq x e hx h1 h2, roundHalfEven_eq _ m h3]

/-- Rounding a positive rational to a double changes it by at most `2 ^ (-53)` of it. -/
theorem roundDouble_error (x : ℚ) (hx : 0 < x) :
    |roundDouble x - x| ≤ x / 2 ^ 53 := by
  have hlog : ((2 : ℕ) : ℚ) ^ Int.log 2 x ≤ x := Int.zpow_log_le_self (by norm_num) hx
  rw [Nat.cast_ofNat] at hlog
  have ht : (0 : ℚ) < (2 : ℚ) ^ Int.log 2 x := by positivity
  have hs : (2 : ℚ) ^ (52 - Int.log 2 x) = 2 ^ 52 / (2 : ℚ) ^ Int.log 2 x := by
    rw [zpow_sub₀ (by norm_num : (2 : ℚ) ≠ 0)]
    norm_num
  unfold roundDouble
  rw [if_neg (ne_of_gt hx), abs_of_pos hx, hs]
  generalize (2 : ℚ) ^ Int.log 2 x = t at hlog ht
  have hr := roundHalfEven_error (x * (2 ^ 52 / t))
  generalize (roundHalfEven (x * (2 ^ 52 / t)) : ℚ) = r at hr
  rw [abs_le] at hr ⊢
  obtain ⟨hr1, hr2⟩ := hr
  have hpos : (0 : ℚ) < 2 ^ 52 / t := by positivity
  have e1 : r / (2 ^ 52 / t) - x = (r - x * (2 ^ 52 / t)) * (t / 2 ^ 52) := by
    field_simp
    ring
  have ht2 : (0 : ℚ) < t / 2 ^ 52 := by positivity
  have hb : 1 / 2 * (t / 2 ^ 52) ≤ x / 2 ^ 53 := by
    have : 1 / 2 * (t / 2 ^ 52) = t / 2 ^ 53 := by norm_num; ring
    rw [this]
    exact div_le_div_of_nonneg_right hlog (by positivity)
  rw [e1]
  constructor
  · have := mul_le_mul_of_nonneg_right hr1 ht2.le
    linarith
  · have := mul_le_mul_of_nonneg_right hr2 ht2.le
    linarith

theorem roundDouble_zero : roundDouble 0 = 0 := by
  unfold roundDouble
  simp

/-- Bounds on the double nearest to a non-negative rational. -/
theorem roundDouble_bounds (x : ℚ) (hx : 0 ≤ x) :
    x * (1 - 1 / 2 ^ 53) ≤ roundDouble x ∧ roundDouble x ≤ x * (1 + 1 / 2 ^ 53) := by
  rcases eq_or_lt_of_le hx with h0 | hpos
  · rw [← h0, roundDouble_zero]
    simp
  · have h := roundDouble_error x hpos
    rw [abs_le] at h
    constructor <;> linarith [h.1, h.2]

/-- One more rounded multiplication keeps a value within relative bounds of the exact
one. -/
theorem roundDouble_mul_bounds (y a k lo hi : ℚ) (hlo : 0 ≤ lo) (hy : 0 ≤ y) (hk : 0 ≤ k)
    (h : y * lo ≤ a ∧ a ≤ y * hi) :
    y * k * (lo * (1 - 1 / 2 ^ 53)) ≤ roundDouble (a * k) ∧
      roundDouble (a * k) ≤ y * k * (hi * (1 + 1 / 2 ^ 53)) := by
  obtain ⟨h1, h2⟩ := h
  have ha : 0 ≤ a := le_trans (mul_nonneg hy hlo) h1
  have hb := roundDouble_bounds (a * k) (mul_nonneg ha hk)
  have hm : (0 : ℚ) ≤ 1 - 1 / 2 ^ 53 := by norm_num
  have hp : (0 : ℚ) ≤ 1 + 1 / 2 ^ 53 := by norm_num
  constructor
  · have e1 : y * lo * k * (1 - 1 / 2 ^ 53) ≤ a * k * (1 - 1 / 2 ^ 53) :=
      mul_le_mul_of_nonneg_right (mul_le_mul_of_nonneg_right h1 hk) hm
    have e2 : y * k * (lo * (1 - 1 / 2 ^ 53)) = y * lo * k * (1 - 1 / 2 ^ 53) := by ring
    rw [e2]
    exact le_trans e1 hb.1
  · have e1 : a * k * (1 + 1 / 2 ^ 53) ≤ y * hi * k * (1 + 1 / 2 ^ 53) :=
      mul_le_mul_of_nonneg_right (mul_le_mul_of_nonneg_right h2 hk) hp
    have e2 : y * k * (hi * (1 + 1 / 2 ^ 53)) = y * hi * k * (1 + 1 / 2 ^ 53) := by ring
    rw [e2]
    exact le_trans hb.2 e1

/-- The number the handler floors, computed in doubles, is within four roundings of the
exact `c * n / L`. -/
theorem scaledRounded_bounds (c L n : ℚ) (hc : 0 ≤ c) (hL : 0 < L) (hn : 0 ≤ n) :
    c * n / L * (1 - 1 / 2 ^ 53) ^ 4 ≤ scaledRounded roundDouble c L n ∧
      scaledRounded roundDouble c L n ≤ c * n / L * (1 + 1 / 2 ^ 53) ^ 4 := by
  have hy : 0 ≤ c / L := div_nonneg hc hL.le
  have hm : (0 : ℚ) ≤ 1 - 1 / 2 ^ 53 := by norm_num
  have s1 := roundDouble_bounds (c / L) hy
  have s2 := roundDouble_mul_bounds (c / L) (roundDouble (c / L)) 100 _ _ hm hy
    (by norm_num) s1
  have s3 := roundDouble_mul_bounds (c / L * 100) (roundDouble (roundDouble (c / L) * 100))
    (1 / 100) _ _ (mul_nonneg hm hm) (mul_nonneg hy (by norm_num)) (by norm_num) s2
  have s4 := roundDouble_mul_bounds (c / L * 100 * (1 / 100))
    (roundDouble (roundDouble (roundDouble (c / L) * 100) * (1 / 100))) n _ _
    (mul_nonneg (mul_nonneg hm hm) hm)
    (mul_nonneg (mul_nonneg hy (by norm_num)) (by norm_num)) hn s3
  unfold scaledRounded
  have e0 : roundDouble (roundDouble (c / L) * 100) / 100 =
      roundDouble (roundDouble (c / L) * 100) * (1 / 100) := by ring
  rw [e0]
  have e1 : c * n / L * (1 - 1 / 2 ^ 53) ^ 4 =
      c / L * 100 * (1 / 100) * n *
        ((1 - 1 / 2 ^ 53) * (1 - 1 / 2 ^ 53) * (1 - 1 / 2 ^ 53) * (1 - 1 / 2 ^ 53)) := by
    ring
  have e2 : c * n / L * (1 + 1 / 2 ^ 53) ^ 4 =
      c / L * 100 * (1 / 100) * n *
        ((1 + 1 / 2 ^ 53) * (1 + 1 / 2 ^ 53) * (1 + 1 / 2 ^ 53) * (1 + 1 / 2 ^ 53)) := by
    ring
  rw [e1, e2]
  exact s4

/-- For offsets inside the script and `K * L < 2 ^ 50`, the floor of the number computed
in doubles is the exact quotient `c * K / L` or one less. -/
theorem floor_scaledRounded (c L K : ℕ) (hL : 0 < L) (hc : c ≤ L) (hKL : K * L < 2 ^ 50) :
    ((c * K / L : ℕ) : ℤ) - 1 ≤ ⌊scaledRounded roundDouble (c : ℚ) (L : ℚ) (K : ℚ)⌋ ∧
      ⌊scaledRounded roundDouble (c : ℚ) (L : ℚ) (K : ℚ)⌋ ≤ ((c * K / L : ℕ) : ℤ) := by
  have hLq : (0 : ℚ) < (L : ℚ) := by exact_mod_cast hL
  have hb := scaledRounded_bounds (c : ℚ) (L : ℚ) (K : ℚ) (by positivity) hLq (by positivity)
  obtain ⟨hlo, hhi⟩ := hb
  generalize scaledRounded roundDouble (c : ℚ) (L : ℚ) (K : ℚ) = v at hlo hhi
  have hX0 : (0 : ℚ) ≤ (c : ℚ) * (K : ℚ) / (L : ℚ) := by positivity
  -- the exact quotient and its floor
  have hq1 : ((c * K / L : ℕ) : ℚ) ≤ (c : ℚ) * (K : ℚ) / (L : ℚ) := by
    rw [le_div_iff₀ hLq]
    exact_mod_cast Nat.div_mul_le_self (c * K) L
  have hq2 : (c : ℚ) * (K : ℚ) / (L : ℚ) + 1 / (L : ℚ) ≤ ((c * K / L : ℕ) : ℚ) + 1 := by
    have h1 : c * K < (c * K / L + 1) * L := by
      have := Nat.lt_div_mul_add (a := c * K) hL
      have e : (c * K / L + 1) * L = c * K / L * L + L := by ring
      rw [e]
      exact this
    have h2 : c * K + 1 ≤ (c * K / L + 1) * L := h1
    have h3 : (c : ℚ) * (K : ℚ) + 1 ≤ (((c * K / L : ℕ) : ℚ) + 1) * (L : ℚ) := by
      exact_mod_cast h2
    rw [← add_div, div_le_iff₀ hLq]
    exact h3
  have hXK : (c : ℚ) * (K : ℚ) / (L : ℚ) ≤ (K : ℚ) := by
    rw [div_le_iff₀ hLq]
    have hcq : (c : ℚ) ≤ (L : ℚ) := by exact_mod_cast hc
    have hKq : (0 : ℚ) ≤ (K : ℚ) := by positivity
    nlinarith
  have hKLq : (K : ℚ) * (L : ℚ) < 2 ^ 50 := by exact_mod_cast hKL
  have hL1 : (1 : ℚ) ≤ (L : ℚ) := by exact_mod_cast hL
  have hK50 : (K : ℚ) < 2 ^ 50 := by
    have hKq : (0 : ℚ) ≤ (K : ℚ) := by positivity
    nlinarith
  have hp4 : ((1 : ℚ) + 1 / 2 ^ 53) ^ 4 ≤ 1 + 5 / 2 ^ 53 := by norm_num
  have hm4 : (1 : ℚ) - 4 / 2 ^ 53 ≤ (1 - 1 / 2 ^ 53) ^ 4 := by norm_num
  have hup : v ≤ (c : ℚ) * (K : ℚ) / (L : ℚ) + 5 / 2 ^ 53 * (K : ℚ) := by
    have h1 := mul_le_mul_of_nonneg_left hp4 hX0
    have h2 : (5 : ℚ) / 2 ^ 53 * ((c : ℚ) * (K : ℚ) / (L : ℚ)) ≤ 5 / 2 ^ 53 * (K : ℚ) :=
      mul_le_mul_of_nonneg_left hXK (by norm_num)
    linarith
  have hdown : (c : ℚ) * (K : ℚ) / (L : ℚ) - 4 / 2 ^ 53 * (K : ℚ) ≤ v := by
    have h1 := mul_le_mul_of_nonneg_left hm4 hX0
    have h2 : (4 : ℚ) / 2 ^ 53 * ((c : ℚ) * (K : ℚ) / (L : ℚ)) ≤ 4 / 2 ^ 53 * (K : ℚ) :=
      mul_le_mul_of_nonneg_left hXK (by norm_num)
    linarith
  have hsmall : (5 : ℚ) / 2 ^ 53 * (K : ℚ) < 1 / (L : ℚ) := by
    rw [lt_div_iff₀ hLq]
    nlinarith
  have hsmall' : (4 : ℚ) / 2 ^ 53 * (K : ℚ) < 1 := by nlinarith
  constructor
  · apply Int.le_floor.2
    rw [Int.cast_sub, Int.cast_one, Int.cast_natCast]
    linarith
  · have hlt : v < (((((c * K / L : ℕ) : ℤ) + 1 : ℤ)) : ℚ) := by
      rw [Int.cast_add, Int.cast_one, Int.cast_natCast]
      linarith
    have := Int.floor_lt.2 hlt
    omega

/-- In doubles `((5 / 15) * 100 / 100) * 3` is `1 - 2 ^ (-52)`, just below 1. -/
theorem scaledRounded_5_15_3 :
    scaledRounded roundDouble 5 15 3 = 9007199254740990 / 2 ^ 53 := by
  unfold scaledRounded
  have h1 : roundDouble ((5 : ℚ) / 15) = 6004799503160661 / 2 ^ 54 := by
    rw [roundDouble_eq ((5 : ℚ) / 15) (-2) 6004799503160661 (by norm_num) (by norm_num)
      (by norm_num) (by rw [abs_lt]; constructor <;> norm_num)]
    norm_num
  have h2 : roundDouble ((6004799503160661 : ℚ) / 2 ^ 54 * 100) =
      4691249611844266 / 2 ^ 47 := by
    rw [roundDouble_eq ((6004799503160661 : ℚ) / 2 ^ 54 * 100) (5) 4691249611844266
      (by norm_num) (by norm_num) (by norm_num) (by rw [abs_lt]; constructor <;> norm_num)]
    norm_num
  have h3 : roundDouble ((4691249611844266 : ℚ) / 2 ^ 47 / 100) =
      6004799503160660 / 2 ^ 54 := by
    rw [roundDouble_eq ((4691249611844266 : ℚ) / 2 ^ 47 / 100) (-2) 6004799503160660
      (by norm_num) (by norm_num) (by norm_num) (by rw [abs_lt]; constructor <;> norm_num)]
    norm_num
  have h4 : roundDouble ((6004799503160660 : ℚ) / 2 ^ 54 * 3) =
      9007199254740990 / 2 ^ 53 := by
    rw [roundDouble_eq ((6004799503160660 : ℚ) / 2 ^ 54 * 3) (-1) 9007199254740990
      (by norm_num) (by norm_num) (by norm_num) (by rw [abs_lt]; constructor <;> norm_num)]
    norm_num
  rw [h1, h2, h3, h4]

/-- In doubles `((7 / 15) * 100 / 100) * 3` is about 1.4. -/
theorem scaledRounded_7_15_3 :
    scaledRounded roundDouble 7 15 3 = 6305039478318694 / 2 ^ 52 := by
  unfold scaledRounded
  have h1 : roundDouble ((7 : ℚ) / 15) = 8406719304424926 / 2 ^ 54 := by
    rw [roundDouble_eq ((7 : ℚ) / 15) (-2) 8406719304424926 (by norm_num) (by norm_num)
      (by norm_num) (by rw [abs_lt]; constructor <;> norm_num)]
    norm_num
  have h2 : roundDouble ((8406719304424926 : ℚ) / 2 ^ 54 * 100) =
      6567749456581973 / 2 ^ 47 := by
    rw [roundDouble_eq ((8406719304424926 : ℚ) / 2 ^ 54 * 100) (5) 6567749456581973
      (by norm_num) (by norm_num) (by norm_num) (by rw [abs_lt]; constructor <;> norm_num)]
    norm_num
  have h3 : roundDouble ((6567749456581973 : ℚ) / 2 ^ 47 / 100) =
      8406719304424925 / 2 ^ 54 := by
    rw [roundDouble_eq ((6567749456581973 : ℚ) / 2 ^ 47 / 100) (-2) 8406719304424925
      (by norm_num) (by norm_num) (by norm_num) (by rw [abs_lt]; constructor <;> norm_num)]
    norm_num
  have h4 : roundDouble ((8406719304424925 : ℚ) / 2 ^ 54 * 3) =
      6305039478318694 / 2 ^ 52 := by
    rw [roundDouble_eq ((8406719304424925 : ℚ) / 2 ^ 54 * 3) (0) 6305039478318694
      (by norm_num) (by norm_num) (by norm_num) (by rw [abs_lt]; constructor <;> norm_num)]
    norm_num
  rw [h1, h2, h3, h4]

/-- In doubles `((10 / 15) * 100 / 100) * 3` is `2 - 2 ^ (-51)`, just below 2. -/
theorem scaledRounded_10_15_3 :
    scaledRounded roundDouble 10 15 3 = 9007199254740990 / 2 ^ 52 := by
  unfold scaledRounded
  have h1 : roundDouble ((10 : ℚ) / 15) = 6004799503160661 / 2 ^ 53 := by
    rw [roundDouble_eq ((10 : ℚ) / 15) (-1) 6004799503160661 (by norm_num) (by norm_num)
      (by norm_num) (by rw [abs_lt]; constructor <;> norm_num)]
    norm_num
  have h2 : roundDouble ((6004799503160661 : ℚ) / 2 ^ 53 * 100) =
      4691249611844266 / 2 ^ 46 := by
    rw [roundDouble_eq ((6004799503160661 : ℚ) / 2 ^ 53 * 100) (6) 4691249611844266
      (by norm_num) (by norm_num) (by norm_num) (by rw [abs_lt]; constructor <;> norm_num)]
    norm_num
  have h3 : roundDouble ((4691249611844266 : ℚ) / 2 ^ 46 / 100) =
      6004799503160660 / 2 ^ 53 := by
    rw [roundDouble_eq ((4691249611844266 : ℚ) / 2 ^ 46 / 100) (-1) 6004799503160660
      (by norm_num) (by norm_num) (by norm_num) (by rw [abs_lt]; constructor <;> norm_num)]
    norm_num
  have h4 : roundDouble ((6004799503160660 : ℚ) / 2 ^ 53 * 3) =
      9007199254740990 / 2 ^ 52 := by
    rw [roundDouble_eq ((6004799503160660 : ℚ) / 2 ^ 53 * 3) (0) 9007199254740990
      (by norm_num) (by norm_num) (by norm_num) (by rw [abs_lt]; constructor <;> norm_num)]
    norm_num
  rw [h1, h2, h3, h4]

/-! ## The indices of the boundary handler in double precision -/

/-- The point index the handler sets on the 15-character record with three key points. -/
theorem demo_currentPoint_double (c : ℕ) (s : PlaybackState) :
    (onboundaryDouble demoExplanation ⟨"word", c⟩ s).currentPoint =
      min ⌊scaledRounded roundDouble (c : ℚ) 15 3⌋ 2 := by
  have hL : scriptLength demoExplanation = 15 := by decide
  have hK : orDefault (keyPointsLength demoExplanation) 1 = 3 := by decide
  rw [onboundaryDouble_currentPoint _ _ _ rfl, hL, hK]
  norm_num

/-- C8, counterexample: on the record of the scenario (`L = 15`, `K = 3`) a word event at
offset 5 sets the point index 0, because in doubles `((5 / 15) * 100 / 100) * 3` is just
below 1, while `min(floor(5 * 3 / 15), 3 - 1)` is 1. -/
theorem boundary_index_rounds_down :
    ¬ ((onboundaryDouble demoExplanation ⟨"word", 5⟩ PlaybackState.initial).currentPoint =
        min ⌊(((5 : ℕ) : ℚ) * ((3 : ℕ) : ℚ) / ((15 : ℕ) : ℚ))⌋ (((3 : ℕ) : ℤ) - 1)) := by
  have hcode : (onboundaryDouble demoExplanation ⟨"word", 5⟩
      PlaybackState.initial).currentPoint = 0 := by
    rw [demo_currentPoint_double]
    have hf : ⌊scaledRounded roundDouble ((5 : ℕ) : ℚ) 15 3⌋ = 0 := by
      rw [Nat.cast_ofNat, scaledRounded_5_15_3, Int.floor_eq_iff]
      constructor <;> norm_num
    rw [hf]
    rfl
  have hclaim : min ⌊(((5 : ℕ) : ℚ) * ((3 : ℕ) : ℚ) / ((15 : ℕ) : ℚ))⌋
      (((3 : ℕ) : ℤ) - 1) = 1 := by
    rw [floor_scaled]
    decide
  rw [hcode, hclaim]
  decide

/-- C8, as amended: for a record with `K ≥ 1` key points, `M ≥ 1` images and a script of
length `L > 0` (with `K * L` and `M * L` below `2 ^ 50`), a word boundary event with
`charIndex ≤ L` sets the current point to `min(floor(q), K - 1)`, where `q` is
`((charIndex / L) * 100 / 100) * K` with every operation rounded to a double; that index
is `min(floor(charIndex * K / L), K - 1)` or one less, and likewise the image index. -/
theorem boundary_indices_double (explanation : Explanation) (kp imgs : List String)
    (event : BoundaryEvent) (s : PlaybackState)
    (hk : explanation.key_points = some kp) (hK : 1 ≤ kp.length)
    (hi : explanation.image_urls = some imgs) (hM : 1 ≤ imgs.length)
    (hL : 0 < scriptLength explanation) (hw : event.name = "word")
    (hc : event.charIndex ≤ scriptLength explanation)
    (hKL : kp.length * scriptLength explanation < 2 ^ 50)
    (hML : imgs.length * scriptLength explanation < 2 ^ 50) :
    (onboundaryDouble explanation event s).currentPoint =
        min ⌊scaledRounded roundDouble (event.charIndex : ℚ) (scriptLength explanation : ℚ)
              (kp.length : ℚ)⌋ ((kp.length : ℤ) - 1) ∧
      min ⌊((event.charIndex : ℚ) * (kp.length : ℚ) / (scriptLength explanation : ℚ))⌋
          ((kp.length : ℤ) - 1) - 1 ≤
        (onboundaryDouble explanation event s).currentPoint ∧
      (onboundaryDouble explanation event s).currentPoint ≤
        min ⌊((event.charIndex : ℚ) * (kp.length : ℚ) / (scriptLength explanation : ℚ))⌋
          ((kp.length : ℤ) - 1) ∧
      (onboundaryDouble explanation event s).currentImageIndex =
        min ⌊scaledRounded roundDouble (event.charIndex : ℚ) (scriptLength explanation : ℚ)
              (imgs.length : ℚ)⌋ ((imgs.length : ℤ) - 1) ∧
      min ⌊((event.charIndex : ℚ) * (imgs.length : ℚ) / (scriptLength explanation : ℚ))⌋
          ((imgs.length : ℤ) - 1) - 1 ≤
        (onboundaryDouble explanation event s).currentImageIndex ∧
      (onboundaryDouble explanation event s).currentImageIndex ≤
        min ⌊((event.charIndex : ℚ) * (imgs.length : ℚ) / (scriptLength explanation : ℚ))⌋
          ((imgs.length : ℤ) - 1) := by
  have hkl : orDefault (keyPointsLength explanation) 1 = kp.length := by
    simp only [keyPointsLength, hk, Option.map_some']
    exact orDefault_of_pos _ _ hK
  have hil : orDefault (imageUrlsLength explanation) 1 = imgs.length := by
    simp only [imageUrlsLength, hi, Option.map_some']
    exact orDefault_of_pos _ _ hM
  have hp := floor_scaledRounded event.charIndex (scriptLength explanation) kp.length hL hc hKL
  have hq := floor_scaledRounded event.charIndex (scriptLength explanation) imgs.length hL hc
    hML
  rw [onboundaryDouble_currentPoint _ _ _ hw, onboundaryDouble_currentImageIndex _ _ _ hw,
    hkl, hil, floor_scaled, floor_scaled]
  refine ⟨rfl, ?_, ?_, rfl, ?_, ?_⟩
  · exact le_min (le_trans (sub_le_sub_right (min_le_left _ _) 1) hp.1)
      (le_trans (sub_le_sub_right (min_le_right _ _) 1) (by omega))
  · exact min_le_min hp.2 (le_refl _)
  · exact le_min (le_trans (sub_le_sub_right (min_le_left _ _) 1) hq.1)
      (le_trans (sub_le_sub_right (min_le_right _ _) 1) (by omega))
  · exact min_le_min hq.2 (le_refl _)

/-- The scenario of the specification, `L = 15`, `K = 3`, word event at offset 7: the
point index is 1, as with exact arithmetic. -/
theorem boundary_indices_double_witness :
    (min ⌊(((7 : ℕ) : ℚ) * ((3 : ℕ) : ℚ) / ((15 : ℕ) : ℚ))⌋ (((3 : ℕ) : ℤ) - 1) - 1 ≤
        (onboundaryDouble demoExplanation ⟨"word", 7⟩ PlaybackState.initial).currentPoint ∧
      (onboundaryDouble demoExplanation ⟨"word", 7⟩ PlaybackState.initial).currentPoint ≤
        min ⌊(((7 : ℕ) : ℚ) * ((3 : ℕ) : ℚ) / ((15 : ℕ) : ℚ))⌋ (((3 : ℕ) : ℤ) - 1)) ∧
      (onboundaryDouble demoExplanation ⟨"word", 7⟩ PlaybackState.initial).currentPoint = 1 := by
  have h := boundary_indices_double demoExplanation ["A-point", "B-point", "C-point"]
    ["a.png", "b.png", "c.png"] ⟨"word", 7⟩ PlaybackState.initial rfl (by decide) rfl
    (by decide) (by decide) rfl (by decide)
    (by
      have hL : scriptLength demoExplanation = 15 := by decide
      rw [hL]
      norm_num)
    (by
      have hL : scriptLength demoExplanation = 15 := by decide
      rw [hL]
      norm_num)
  refine ⟨⟨h.2.1, h.2.2.1⟩, ?_⟩
  rw [demo_currentPoint_double]
  have hf : ⌊scaledRounded roundDouble ((7 : ℕ) : ℚ) 15 3⌋ = 1 := by
    rw [Nat.cast_ofNat, scaledRounded_7_15_3, Int.floor_eq_iff]
    constructor <;> norm_num
  rw [hf]
  rfl

/-- Offset 10 on the same record: the point index is 1, where exact arithmetic gives 2. -/
theorem boundary_index_at_offset_10 :
    (onboundaryDouble demoExplanation ⟨"word", 10⟩ PlaybackState.initial).currentPoint = 1 ∧
      (onboundary demoExplanation ⟨"word", 10⟩ PlaybackState.initial).currentPoint = 2 := by
  constructor
  · rw [demo_currentPoint_double]
    have hf : ⌊scaledRounded roundDouble ((10 : ℕ) : ℚ) 15 3⌋ = 1 := by
      rw [Nat.cast_ofNat, scaledRounded_10_15_3, Int.floor_eq_iff]
      constructor <;> norm_num
    rw [hf]
    rfl
  · rw [onboundary_currentPoint _ _ _ rfl]
    simp only [floor_scaled]
    decide

end VideoGPT
